import Mathlib

/-!
# Verification of the runpack coordinator (Cloudflare worker)

A shallow embedding of the coordinator's job/runner state machine:

* `src/worker/src/utils/hash.ts` — canonical hashing (`generateJobHash`,
  `sortObjectKeys`) and the freshness probe (`validateJobResult`,
  `checkFigpackExpiration`, `extractFigpackUrls`, `validateFigpackUrl`),
  together with the size validators (`validateJobInput`, `validateJobOutput`,
  `validateConsoleOutput`, `validateErrorMessage`).
* `src/worker/src/db/queries.ts` — the store operations expressed as
  conditional updates over a list of rows (`claimJob`, `updateJobHeartbeat`,
  `completeJob`, `failJob`, `checkStaleJobs`, `registerRunner`, `deleteJob`, …).
* `src/worker/src/handlers/jobs.ts` and `handlers/runner.ts` — the HTTP
  handlers (`handleSubmitJob`, `handleCheckJob`, `handleClaimJob`,
  `handleHeartbeat`, `handleCompleteJob`, `handleErrorJob`).

Modelling conventions:

* JavaScript values carried in `input_params` / `output_data` are modelled by
  the inductive `JVal` (JSON trees; numbers are modelled as integers, which is
  the only number shape the hashing/serialization claims exercise).
* A TEXT column that holds serialized JSON is modelled by the parse result of
  its contents: `Option (Option JVal)` is `none` for SQL NULL (or the empty
  string, which the code treats identically via JS falsiness), `some none`
  for a non-empty string that `JSON.parse` rejects, and `some (some v)` for a
  string parsing to `v`.
* `Date.now()` is threaded explicitly as an `Int` argument `now`.
* Outbound `fetch` of a `figpack.json` document is an oracle
  `String → Option Figpack`: `none` models a network error, a non-2xx
  response, or a JSON-parse failure of the response body; `some d` models a
  successful fetch of a document with the three fields the code inspects.
* SHA-256 is implemented in full over `Nat` bytes (32-bit words reduced with
  `% 2 ^ 32`), and strings are encoded to UTF-8 bytes before hashing, matching
  `TextEncoder`.
-/

/-! ## JSON values (`Record<string, any>` payloads) -/

/-- A JSON value as produced by `JSON.parse` / consumed by `JSON.stringify`.
Numbers are restricted to integers (the serialization claims under
verification never exercise non-integer numbers). -/
inductive JVal where
  | null : JVal
  | bool (b : Bool) : JVal
  | num (n : Int) : JVal
  | str (s : String) : JVal
  | arr (elems : List JVal) : JVal
  | obj (fields : List (String × JVal)) : JVal
deriving Repr

mutual

/-- Boolean structural equality on `JVal`. -/
def jvalBeq : JVal → JVal → Bool
  | .null, .null => true
  | .bool a, .bool b => a == b
  | .num a, .num b => a == b
  | .str a, .str b => a == b
  | .arr xs, .arr ys => jlistBeq xs ys
  | .obj fs, .obj gs => jfieldsBeq fs gs
  | _, _ => false

def jlistBeq : List JVal → List JVal → Bool
  | [], [] => true
  | x :: xs, y :: ys => jvalBeq x y && jlistBeq xs ys
  | _, _ => false

def jfieldsBeq : List (String × JVal) → List (String × JVal) → Bool
  | [], [] => true
  | (k, v) :: fs, (k', v') :: gs => k == k' && jvalBeq v v' && jfieldsBeq fs gs
  | _, _ => false

end

mutual

theorem jvalBeq_iff : ∀ a b : JVal, jvalBeq a b = true ↔ a = b
  | .null, .null => by simp [jvalBeq]
  | .null, .bool _ | .null, .num _ | .null, .str _ | .null, .arr _ | .null, .obj _ => by
    simp [jvalBeq]
  | .bool _, .null | .bool _, .num _ | .bool _, .str _ | .bool _, .arr _ | .bool _, .obj _ => by
    simp [jvalBeq]
  | .num _, .null | .num _, .bool _ | .num _, .str _ | .num _, .arr _ | .num _, .obj _ => by
    simp [jvalBeq]
  | .str _, .null | .str _, .bool _ | .str _, .num _ | .str _, .arr _ | .str _, .obj _ => by
    simp [jvalBeq]
  | .arr _, .null | .arr _, .bool _ | .arr _, .num _ | .arr _, .str _ | .arr _, .obj _ => by
    simp [jvalBeq]
  | .obj _, .null | .obj _, .bool _ | .obj _, .num _ | .obj _, .str _ | .obj _, .arr _ => by
    simp [jvalBeq]
  | .bool a, .bool b => by simp [jvalBeq]
  | .num a, .num b => by simp [jvalBeq]
  | .str a, .str b => by simp [jvalBeq]
  | .arr xs, .arr ys => by
    simp only [jvalBeq, JVal.arr.injEq]
    exact jlistBeq_iff xs ys
  | .obj fs, .obj gs => by
    simp only [jvalBeq, JVal.obj.injEq]
    exact jfieldsBeq_iff fs gs

theorem jlistBeq_iff : ∀ xs ys : List JVal, jlistBeq xs ys = true ↔ xs = ys
  | [], [] => by simp [jlistBeq]
  | [], _ :: _ => by simp [jlistBeq]
  | _ :: _, [] => by simp [jlistBeq]
  | x :: xs, y :: ys => by
    simp only [jlistBeq, Bool.and_eq_true, List.cons.injEq]
    exact and_congr (jvalBeq_iff x y) (jlistBeq_iff xs ys)

theorem jfieldsBeq_iff :
    ∀ fs gs : List (String × JVal), jfieldsBeq fs gs = true ↔ fs = gs
  | [], [] => by simp [jfieldsBeq]
  | [], _ :: _ => by simp [jfieldsBeq]
  | _ :: _, [] => by simp [jfieldsBeq]
  | (k, v) :: fs, (k', v') :: gs => by
    simp only [jfieldsBeq, Bool.and_eq_true, List.cons.injEq, Prod.mk.injEq]
    rw [beq_iff_eq, jvalBeq_iff v v', jfieldsBeq_iff fs gs, and_assoc]

end

instance : DecidableEq JVal := fun a b =>
  decidable_of_iff (jvalBeq a b = true) (jvalBeq_iff a b)

/-! ## `JSON.stringify` (default serialization, as used for hashing and
size validation) -/

/-- Lowercase hexadecimal digit, as produced by `Number.prototype.toString(16)`. -/
def hexDigit (n : Nat) : Char :=
  if n < 10 then Char.ofNat (48 + n) else Char.ofNat (87 + n)

/-- Escape of a single character inside a JSON string literal, following
`JSON.stringify`. -/
def escapeJsonChar (c : Char) : String :=
  if c = '"' then "\\\""
  else if c = '\\' then "\\\\"
  else if c = Char.ofNat 8 then "\\b"
  else if c = Char.ofNat 12 then "\\f"
  else if c = '\n' then "\\n"
  else if c = Char.ofNat 13 then "\\r"
  else if c = '\t' then "\\t"
  else if c.toNat < 32 then
    "\\u00" ++ String.mk [hexDigit (c.toNat / 16), hexDigit (c.toNat % 16)]
  else String.singleton c

/-- `JSON.stringify` of a string. -/
def stringifyString (s : String) : String :=
  "\"" ++ String.join (s.data.map escapeJsonChar) ++ "\""

mutual

/-- `JSON.stringify` of a value (no replacer, no spacing); object fields are
serialized in their stored order. -/
def stringify : JVal → String
  | .null => "null"
  | .bool true => "true"
  | .bool false => "false"
  | .num n => toString n
  | .str s => stringifyString s
  | .arr es => "[" ++ stringifyElems es ++ "]"
  | .obj fs => "\x7b" ++ stringifyFields fs ++ "\x7d"

def stringifyElems : List JVal → String
  | [] => ""
  | v :: vs => stringify v ++ stringifyRestElems vs

def stringifyRestElems : List JVal → String
  | [] => ""
  | v :: vs => "," ++ stringify v ++ stringifyRestElems vs

def stringifyFields : List (String × JVal) → String
  | [] => ""
  | (k, v) :: fs => stringifyString k ++ ":" ++ stringify v ++ stringifyRestFields fs

def stringifyRestFields : List (String × JVal) → String
  | [] => ""
  | (k, v) :: fs =>
    "," ++ stringifyString k ++ ":" ++ stringify v ++ stringifyRestFields fs

end

/-! ## UTF-8 encoding (`TextEncoder`) -/

/-- UTF-8 encoding of one Unicode scalar value, as a list of byte values. -/
def utf8EncodeCharNat (c : Char) : List Nat :=
  let n := c.toNat
  if n < 128 then [n]
  else if n < 2048 then [192 ||| (n >>> 6), 128 ||| (n &&& 63)]
  else if n < 65536 then
    [224 ||| (n >>> 12), 128 ||| ((n >>> 6) &&& 63), 128 ||| (n &&& 63)]
  else
    [240 ||| (n >>> 18), 128 ||| ((n >>> 12) &&& 63),
     128 ||| ((n >>> 6) &&& 63), 128 ||| (n &&& 63)]

/-- `new TextEncoder().encode(s)`: the UTF-8 bytes of `s`. -/
def utf8Bytes (s : String) : List Nat :=
  (s.data.map utf8EncodeCharNat).join

/-! ## SHA-256 (`crypto.subtle.digest('SHA-256', …)`)

Implemented over `Nat`, with 32-bit words kept below `2 ^ 32` by explicit
reduction. -/

/-- Reduce to a 32-bit word. -/
def w32 (n : Nat) : Nat := n % 4294967296

/-- Right-rotation of a 32-bit word by `n` places. -/
def rotr32 (n x : Nat) : Nat := w32 ((x >>> n) ||| (x <<< (32 - n)))

def shaSigma0 (x : Nat) : Nat := rotr32 7 x ^^^ rotr32 18 x ^^^ (x >>> 3)

def shaSigma1 (x : Nat) : Nat := rotr32 17 x ^^^ rotr32 19 x ^^^ (x >>> 10)

def shaBigSigma0 (x : Nat) : Nat := rotr32 2 x ^^^ rotr32 13 x ^^^ rotr32 22 x

def shaBigSigma1 (x : Nat) : Nat := rotr32 6 x ^^^ rotr32 11 x ^^^ rotr32 25 x

/-- The 64 SHA-256 round constants (FIPS 180-4), in decimal. -/
def shaK : List Nat :=
  [1116352408, 1899447441, 3049323471, 3921009573, 961987163,
   1508970993, 2453635748, 2870763221, 3624381080, 310598401,
   607225278, 1426881987, 1925078388, 2162078206, 2614888103,
   3248222580, 3835390401, 4022224774, 264347078, 604807628,
   770255983, 1249150122, 1555081692, 1996064986, 2554220882,
   2821834349, 2952996808, 3210313671, 3336571891, 3584528711,
   113926993, 338241895, 666307205, 773529912, 1294757372,
   1396182291, 1695183700, 1986661051, 2177026350, 2456956037,
   2730485921, 2820302411, 3259730800, 3345764771, 3516065817,
   3600352804, 4094571909, 275423344, 430227734, 506948616,
   659060556, 883997877, 958139571, 1322822218, 1537002063,
   1747873779, 1955562222, 2024104815, 2227730452, 2361852424,
   2428436474, 2756734187, 3204031479, 3329325298]

/-- The SHA-256 initial hash state (FIPS 180-4), in decimal. -/
def shaInit : List Nat :=
  [1779033703, 3144134277, 1013904242, 2773480762,
   1359893119, 2600822924, 528734635, 1541459225]

/-- Big-endian byte rendering of `n` on `count` bytes. -/
def bytesBE (count n : Nat) : List Nat :=
  (List.range count).map fun i => (n >>> (8 * (count - 1 - i))) &&& 255

/-- SHA-256 padding: append `0x80`, zero bytes up to 56 mod 64, and the
bit length on 8 big-endian bytes. -/
def padMessage (msg : List Nat) : List Nat :=
  let padZeros := (119 - msg.length % 64) % 64
  msg ++ [128] ++ List.replicate padZeros 0 ++ bytesBE 8 (8 * msg.length)

/-- Group bytes into big-endian 32-bit words. -/
def bytesToWords : List Nat → List Nat
  | b0 :: b1 :: b2 :: b3 :: rest =>
    ((((b0 <<< 8) ||| b1) <<< 8 ||| b2) <<< 8 ||| b3) :: bytesToWords rest
  | _ => []

/-- Split a word list into chunks of 16 words; the fuel (initially the list
length, an upper bound on the chunk count) makes the recursion structural. -/
def chunk16Fuel : Nat → List Nat → List (List Nat)
  | 0, _ => []
  | _, [] => []
  | fuel + 1, w :: ws => (w :: ws).take 16 :: chunk16Fuel fuel ((w :: ws).drop 16)

/-- Split a word list into chunks of 16 words. -/
def chunk16 (ws : List Nat) : List (List Nat) := chunk16Fuel ws.length ws

/-- Extend a 16-word chunk to the 64-word message schedule. -/
def schedule (chunk : List Nat) : List Nat :=
  (List.range 48).foldl
    (fun ws _ =>
      let n := ws.length
      ws ++ [w32 (shaSigma1 (ws.getD (n - 2) 0) + ws.getD (n - 7) 0 +
                  shaSigma0 (ws.getD (n - 15) 0) + ws.getD (n - 16) 0)])
    chunk

/-- One SHA-256 round on the 8-word working state. -/
def compressStep (state : List Nat) (kw : Nat × Nat) : List Nat :=
  match state with
  | [a, b, c, d, e, f, g, h] =>
    let ch := (e &&& f) ^^^ ((4294967295 ^^^ e) &&& g)
    let maj := (a &&& b) ^^^ (a &&& c) ^^^ (b &&& c)
    let t1 := w32 (h + shaBigSigma1 e + ch + kw.1 + kw.2)
    let t2 := w32 (shaBigSigma0 a + maj)
    [w32 (t1 + t2), a, b, c, w32 (d + t1), e, f, g]
  | s => s

/-- Process one 16-word chunk into the running hash state. -/
def processChunk (h : List Nat) (chunk : List Nat) : List Nat :=
  let st := ((schedule chunk).zip shaK).foldl compressStep h
  (h.zip st).map fun p => w32 (p.1 + p.2)

/-- SHA-256 digest (32 bytes) of a byte list. -/
def sha256 (msg : List Nat) : List Nat :=
  let hh := (chunk16 (bytesToWords (padMessage msg))).foldl processChunk shaInit
  (hh.map (bytesBE 4)).join

/-- Render one byte as two lowercase hex digits
(`b.toString(16).padStart(2, '0')`). -/
def byteToHex (b : Nat) : String :=
  String.mk [hexDigit (b / 16), hexDigit (b % 16)]

/-- Lowercase-hex SHA-256 of a byte list. -/
def sha256hex (msg : List Nat) : String :=
  String.join ((sha256 msg).map byteToHex)

/-! ## Canonicalization and hashing (`src/worker/src/utils/hash.ts`) -/

/-- Comparison of object fields by key, the order used by
`Object.keys(obj).sort()`. -/
def keyLe (p q : String × JVal) : Prop := p.1 ≤ q.1

instance : DecidableRel keyLe := fun p q => inferInstanceAs (Decidable (p.1 ≤ q.1))

mutual

/-- `sortObjectKeys` from `hash.ts`: recursively sort all object keys
lexicographically; arrays keep their order; scalars are unchanged.  The
source iterates `Object.keys(obj).sort()` and rebuilds the object looking
each key up; with the (always) duplicate-free keys of a JS object this is
the same as sorting the field list by key, which is how we phrase it. -/
def sortObjectKeys : JVal → JVal
  | .null => .null
  | .bool b => .bool b
  | .num n => .num n
  | .str s => .str s
  | .arr es => .arr (sortKeysElems es)
  | .obj fs => .obj (List.insertionSort keyLe (sortKeysFields fs))

def sortKeysElems : List JVal → List JVal
  | [] => []
  | v :: vs => sortObjectKeys v :: sortKeysElems vs

def sortKeysFields : List (String × JVal) → List (String × JVal)
  | [] => []
  | (k, v) :: fs => (k, sortObjectKeys v) :: sortKeysFields fs

end

/-- `generateJobHash` from `hash.ts`: lowercase-hex SHA-256 of the UTF-8
bytes of `JSON.stringify({ type: jobType, params: sortObjectKeys(inputParams) })`. -/
def generateJobHash (jobType : String) (inputParams : List (String × JVal)) : String :=
  let canonical :=
    stringify (.obj [("type", .str jobType), ("params", sortObjectKeys (.obj inputParams))])
  sha256hex (utf8Bytes canonical)

/-! ## Deep equality up to mapping-key order

`jEquiv a b` holds when `a` and `b` are the same JSON value except that the
fields of each object may be listed in a different order (arrays keep their
order, scalars must be identical).  For objects it demands equal field counts
and that every field of the left object occurs (same key, equivalent value)
in the right object; on key-duplicate-free objects this is deep equality up
to key permutation.  `jwf` states the key lists are duplicate-free at every
depth, which is automatic for values coming from JavaScript objects. -/

/-- Duplicate-freedom of a key list, as a boolean. -/
def noDupKeys : List String → Bool
  | [] => true
  | k :: ks => !ks.contains k && noDupKeys ks

mutual

/-- Deep equality up to object-key order. -/
def jEquiv : JVal → JVal → Bool
  | .null, .null => true
  | .bool a, .bool b => a == b
  | .num a, .num b => a == b
  | .str a, .str b => a == b
  | .arr xs, .arr ys => jEquivElems xs ys
  | .obj fs, .obj gs => fs.length == gs.length && jEquivSub fs gs
  | _, _ => false
termination_by a b => sizeOf a + sizeOf b
decreasing_by all_goals (simp <;> omega)

def jEquivElems : List JVal → List JVal → Bool
  | [], [] => true
  | x :: xs, y :: ys => jEquiv x y && jEquivElems xs ys
  | _, _ => false
termination_by xs ys => sizeOf xs + sizeOf ys
decreasing_by all_goals (simp <;> omega)

def jEquivSub : List (String × JVal) → List (String × JVal) → Bool
  | [], _ => true
  | (k, v) :: fs, gs => jEquivLookup k v gs && jEquivSub fs gs
termination_by fs gs => sizeOf fs + sizeOf gs
decreasing_by all_goals (simp <;> omega)

def jEquivLookup : String → JVal → List (String × JVal) → Bool
  | _, _, [] => false
  | k, v, (k', v') :: gs => (k == k' && jEquiv v v') || jEquivLookup k v gs
termination_by _ v gs => sizeOf v + sizeOf gs
decreasing_by all_goals (simp <;> omega)

end

mutual

/-- Keys are duplicate-free at every nesting depth. -/
def jwf : JVal → Bool
  | .null => true
  | .bool _ => true
  | .num _ => true
  | .str _ => true
  | .arr es => jwfElems es
  | .obj fs => noDupKeys (fs.map Prod.fst) && jwfFields fs

def jwfElems : List JVal → Bool
  | [] => true
  | v :: vs => jwf v && jwfElems vs

def jwfFields : List (String × JVal) → Bool
  | [] => true
  | (_, v) :: fs => jwf v && jwfFields fs

end

/-! ## Canonical form is invariant under mapping-key order -/

instance : IsTotal (String × JVal) keyLe := ⟨fun p q => le_total p.1 q.1⟩

instance : IsTrans (String × JVal) keyLe := ⟨fun _ _ _ h h' => le_trans h h'⟩

theorem jEquivLookup_exists {k : String} {v : JVal} :
    ∀ {gs : List (String × JVal)}, jEquivLookup k v gs = true →
      ∃ v', (k, v') ∈ gs ∧ jEquiv v v' = true := by
  intro gs
  induction gs with
  | nil => intro h; simp [jEquivLookup] at h
  | cons q gs ih =>
    intro h
    obtain ⟨k', v'⟩ := q
    rw [jEquivLookup] at h
    rcases Bool.or_eq_true_iff.mp h with h | h
    · obtain ⟨hk, hv⟩ := Bool.and_eq_true_iff.mp h
      exact ⟨v', by simp [beq_iff_eq.mp hk], hv⟩
    · obtain ⟨v'', hmem, hv⟩ := ih h
      exact ⟨v'', List.mem_cons_of_mem _ hmem, hv⟩

theorem jEquivSub_forall :
    ∀ {fs gs : List (String × JVal)}, jEquivSub fs gs = true →
      ∀ p ∈ fs, jEquivLookup p.1 p.2 gs = true := by
  intro fs gs h
  induction fs with
  | nil => intro p hp; simp at hp
  | cons q fs ih =>
    obtain ⟨k, v⟩ := q
    rw [jEquivSub] at h
    obtain ⟨h1, h2⟩ := Bool.and_eq_true_iff.mp h
    intro p hp
    rcases List.mem_cons.mp hp with rfl | hp
    · exact h1
    · exact ih h2 p hp

theorem jwfFields_forall :
    ∀ {fs : List (String × JVal)}, jwfFields fs = true → ∀ p ∈ fs, jwf p.2 = true := by
  intro fs h
  induction fs with
  | nil => intro p hp; simp at hp
  | cons q fs ih =>
    obtain ⟨k, v⟩ := q
    rw [jwfFields] at h
    obtain ⟨h1, h2⟩ := Bool.and_eq_true_iff.mp h
    intro p hp
    rcases List.mem_cons.mp hp with rfl | hp
    · exact h1
    · exact ih h2 p hp

theorem noDupKeys_iff : ∀ {ks : List String}, noDupKeys ks = true ↔ ks.Nodup := by
  intro ks
  induction ks with
  | nil => simp [noDupKeys]
  | cons k ks ih =>
    rw [noDupKeys, Bool.and_eq_true_iff, List.nodup_cons, ih]
    simp

theorem sortKeysFields_length :
    ∀ fs : List (String × JVal), (sortKeysFields fs).length = fs.length := by
  intro fs
  induction fs with
  | nil => rfl
  | cons q fs ih => obtain ⟨k, v⟩ := q; simp [sortKeysFields, ih]

theorem sortKeysFields_keys :
    ∀ fs : List (String × JVal), (sortKeysFields fs).map Prod.fst = fs.map Prod.fst := by
  intro fs
  induction fs with
  | nil => rfl
  | cons q fs ih => obtain ⟨k, v⟩ := q; simp [sortKeysFields, ih]

theorem mem_sortKeysFields :
    ∀ {fs : List (String × JVal)} {p : String × JVal}, p ∈ sortKeysFields fs →
      ∃ v, (p.1, v) ∈ fs ∧ p.2 = sortObjectKeys v := by
  intro fs
  induction fs with
  | nil => intro p hp; simp [sortKeysFields] at hp
  | cons q fs ih =>
    obtain ⟨k, v⟩ := q
    intro p hp
    rw [sortKeysFields] at hp
    rcases List.mem_cons.mp hp with rfl | hp
    · exact ⟨v, List.mem_cons_self _ _, rfl⟩
    · obtain ⟨v', hmem, hcanon⟩ := ih hp
      exact ⟨v', List.mem_cons_of_mem _ hmem, hcanon⟩

theorem sortKeysFields_mem :
    ∀ {fs : List (String × JVal)} {k : String} {v : JVal}, (k, v) ∈ fs →
      (k, sortObjectKeys v) ∈ sortKeysFields fs := by
  intro fs
  induction fs with
  | nil => intro k v hp; simp at hp
  | cons q fs ih =>
    obtain ⟨k', v'⟩ := q
    intro k v hp
    rw [sortKeysFields]
    rcases List.mem_cons.mp hp with heq | hp
    · cases heq
      exact List.mem_cons_self _ _
    · exact List.mem_cons_of_mem _ (ih hp)

/-- Two lists of fields that are permutations of each other, both sorted by
key, with duplicate-free keys, are equal. -/
theorem sorted_key_nodup_eq :
    ∀ (l₁ l₂ : List (String × JVal)), l₁.Perm l₂ → l₁.Pairwise keyLe →
      l₂.Pairwise keyLe → (l₁.map Prod.fst).Nodup → l₁ = l₂ := by
  intro l₁
  induction l₁ with
  | nil => intro l₂ hp _ _ _; exact hp.nil_eq
  | cons p l₁ ih =>
    intro l₂ hp hs₁ hs₂ hnd
    cases l₂ with
    | nil => exact absurd hp.symm (by simp)
    | cons q l₂ =>
      have hpq : p = q := by
        by_cases hpq : p = q
        · exact hpq
        · have hpmem : p ∈ q :: l₂ := hp.mem_iff.mp (List.mem_cons_self _ _)
          have hqmem : q ∈ p :: l₁ := hp.symm.mem_iff.mp (List.mem_cons_self _ _)
          have hpl₂ : p ∈ l₂ := by
            rcases List.mem_cons.mp hpmem with h | h
            · exact absurd h hpq
            · exact h
          have hql₁ : q ∈ l₁ := by
            rcases List.mem_cons.mp hqmem with h | h
            · exact absurd h.symm hpq
            · exact h
          have h1 : p.1 ≤ q.1 := (List.pairwise_cons.mp hs₁).1 q hql₁
          have h2 : q.1 ≤ p.1 := (List.pairwise_cons.mp hs₂).1 p hpl₂
          have hkey : p.1 = q.1 := le_antisymm h1 h2
          exfalso
          have : p.1 ∈ l₁.map Prod.fst := hkey ▸ List.mem_map_of_mem Prod.fst hql₁
          exact (List.nodup_cons.mp (by simpa using hnd)).1 this
      subst hpq
      have htail : l₁.Perm l₂ := hp.cons_inv
      have := ih l₂ htail (List.pairwise_cons.mp hs₁).2 (List.pairwise_cons.mp hs₂).2
        (List.nodup_cons.mp (by simpa using hnd)).2
      rw [this]

theorem sortKeysElems_eq_aux (xs : List JVal)
    (IH : ∀ x ∈ xs, ∀ y, jEquiv x y = true → jwf x = true → jwf y = true →
      sortObjectKeys x = sortObjectKeys y) :
    ∀ ys, jEquivElems xs ys = true → jwfElems xs = true → jwfElems ys = true →
      sortKeysElems xs = sortKeysElems ys := by
  induction xs with
  | nil =>
    intro ys he _ _
    cases ys with
    | nil => rfl
    | cons y ys => simp [jEquivElems] at he
  | cons x xs ih =>
    intro ys he wa wb
    cases ys with
    | nil => simp [jEquivElems] at he
    | cons y ys =>
      rw [jEquivElems, Bool.and_eq_true_iff] at he
      rw [jwfElems, Bool.and_eq_true_iff] at wa wb
      rw [sortKeysElems, sortKeysElems,
        IH x (List.mem_cons_self _ _) y he.1 wa.1 wb.1,
        ih (fun x hx => IH x (List.mem_cons_of_mem _ hx)) ys he.2 wa.2 wb.2]

theorem sortKeysFields_perm_aux (fs gs : List (String × JVal))
    (IH : ∀ k v, (k, v) ∈ fs → ∀ v', jEquiv v v' = true → jwf v = true → jwf v' = true →
      sortObjectKeys v = sortObjectKeys v')
    (hlen : fs.length = gs.length) (hsub : jEquivSub fs gs = true)
    (wfa : jwfFields fs = true) (wfb : jwfFields gs = true)
    (hnd : (fs.map Prod.fst).Nodup) :
    (sortKeysFields fs).Perm (sortKeysFields gs) := by
  have hsubset : sortKeysFields fs ⊆ sortKeysFields gs := by
    intro p hp
    obtain ⟨v, hmem, hcanon⟩ := mem_sortKeysFields hp
    have hlk : jEquivLookup p.1 v gs = true := jEquivSub_forall hsub (p.1, v) hmem
    obtain ⟨v', hmem', hv⟩ := jEquivLookup_exists hlk
    have hcc : sortObjectKeys v = sortObjectKeys v' :=
      IH p.1 v hmem v' hv (jwfFields_forall wfa (p.1, v) hmem)
        (jwfFields_forall wfb (p.1, v') hmem')
    have : p = (p.1, sortObjectKeys v') := by
      rw [← hcc]; exact Prod.ext rfl hcanon
    rw [this]
    exact sortKeysFields_mem hmem'
  have hnd' : (sortKeysFields fs).Nodup :=
    List.Nodup.of_map Prod.fst (by rw [sortKeysFields_keys]; exact hnd)
  exact (hnd'.subperm hsubset).perm_of_length_le
    (by rw [sortKeysFields_length, sortKeysFields_length]; omega)

/-- Strong-induction core: deep-equal (up to mapping-key order) well-formed
values have equal canonical forms under `sortObjectKeys`. -/
theorem sortObjectKeys_eq_of_jEquiv_aux :
    ∀ (n : Nat) (a b : JVal), sizeOf a ≤ n → jEquiv a b = true → jwf a = true →
      jwf b = true → sortObjectKeys a = sortObjectKeys b := by
  intro n
  induction n with
  | zero =>
    intro a b hsz he wa wb
    exact absurd hsz (by cases a <;> simp)
  | succ n ih =>
    intro a b hsz he wa wb
    cases a <;> cases b <;>
      try (simp only [jEquiv] at he; exact absurd he Bool.false_ne_true)
    · rfl
    · rw [jEquiv] at he; rw [beq_iff_eq.mp he]
    · rw [jEquiv] at he; rw [beq_iff_eq.mp he]
    · rw [jEquiv] at he; rw [beq_iff_eq.mp he]
    · rename_i xs ys
      rw [jEquiv] at he
      rw [jwf] at wa wb
      rw [sortObjectKeys, sortObjectKeys,
        sortKeysElems_eq_aux xs
          (fun x hx y hy wx wy => ih x y
            (by have := List.sizeOf_lt_of_mem hx; simp at hsz; omega) hy wx wy)
          ys he wa wb]
    · rename_i fs gs
      rw [jEquiv, Bool.and_eq_true_iff] at he
      rw [jwf, Bool.and_eq_true_iff] at wa wb
      have hnd : (fs.map Prod.fst).Nodup := noDupKeys_iff.mp wa.1
      have hperm := sortKeysFields_perm_aux fs gs
        (fun k v hmem v' hv wv wv' => ih v v'
          (by have h1 := List.sizeOf_lt_of_mem hmem; simp at h1 hsz; omega) hv wv wv')
        (beq_iff_eq.mp he.1) he.2 wa.2 wb.2 hnd
      rw [sortObjectKeys, sortObjectKeys]
      congr 1
      refine sorted_key_nodup_eq _ _
        ((List.perm_insertionSort _ _).trans
          (hperm.trans (List.perm_insertionSort _ _).symm))
        (List.sorted_insertionSort _ _) (List.sorted_insertionSort _ _) ?_
      have hkeys : ((List.insertionSort keyLe (sortKeysFields fs)).map Prod.fst).Perm
          ((sortKeysFields fs).map Prod.fst) := (List.perm_insertionSort _ _).map _
      exact hkeys.nodup_iff.mpr (by rw [sortKeysFields_keys]; exact hnd)

/-- Deep-equal (up to mapping-key order) well-formed values have equal
canonical forms under `sortObjectKeys`. -/
theorem sortObjectKeys_eq_of_jEquiv (a b : JVal) (he : jEquiv a b = true)
    (wa : jwf a = true) (wb : jwf b = true) :
    sortObjectKeys a = sortObjectKeys b :=
  sortObjectKeys_eq_of_jEquiv_aux (sizeOf a) a b le_rfl he wa wb

/-- C2: for every job_type and every pair of input_params objects containing
the same keys and values with mapping keys in different orders at any nesting
depth (arrays keeping their order; keys duplicate-free, as JS objects are),
`generateJobHash` returns identical (lowercase-hex SHA-256) strings. -/
theorem generateJobHash_key_order_invariant
    (t : String) (p1 p2 : List (String × JVal))
    (he : jEquiv (.obj p1) (.obj p2) = true)
    (w1 : jwf (.obj p1) = true) (w2 : jwf (.obj p2) = true) :
    generateJobHash t p1 = generateJobHash t p2 := by
  unfold generateJobHash
  rw [sortObjectKeys_eq_of_jEquiv (.obj p1) (.obj p2) he w1 w2]

/-- Witness for C2 at the spec's concrete example:
`{a:1, b:2}` versus `{b:2, a:1}` under job type `"T"`. -/
theorem generateJobHash_key_order_invariant_witness :
    jEquiv (.obj [("a", .num 1), ("b", .num 2)])
        (.obj [("b", .num 2), ("a", .num 1)]) = true ∧
    jwf (.obj [("a", .num 1), ("b", .num 2)]) = true ∧
    jwf (.obj [("b", .num 2), ("a", .num 1)]) = true ∧
    generateJobHash "T" [("a", .num 1), ("b", .num 2)] =
      generateJobHash "T" [("b", .num 2), ("a", .num 1)] :=
  ⟨by simp [jEquiv, jEquivSub, jEquivLookup], by decide, by decide,
    generateJobHash_key_order_invariant "T" _ _
      (by simp [jEquiv, jEquivSub, jEquivLookup]) (by decide) (by decide)⟩

/-! ## Data model (`db/schema.sql`, `types/index.ts`) -/

/-- The six job statuses of the schema CHECK constraint. -/
inductive JobStatus where
  | pending | claimed | in_progress | completed | failed | expired
deriving DecidableEq, Repr

/-- A row of the `jobs` table.  `input_params` and `output_data` are TEXT
columns holding serialized JSON and are modelled by their parse results (see
the file header); `console_output` defaults to the empty string. -/
structure Job where
  id : String
  job_hash : String
  job_type : String
  input_params : JVal
  status : JobStatus
  created_at : Int
  updated_at : Int
  claimed_by : Option String := none
  claimed_at : Option Int := none
  progress_current : Option Int := none
  progress_total : Option Int := none
  console_output : String := ""
  output_data : Option (Option JVal) := none
  error_message : Option String := none
  last_heartbeat : Option Int := none
deriving DecidableEq, Repr

/-- A row of the `runners` table; `capabilities` holds a JSON array of
job types and is modelled parsed. -/
structure Runner where
  id : String
  name : String
  capabilities : List String
  registered_at : Int
  last_seen : Int
deriving DecidableEq, Repr

/-- The D1 database: the two relations. -/
structure Store where
  jobs : List Job
  runners : List Runner
deriving DecidableEq, Repr

/-! ## Configuration constants (`config.ts`) -/

def SIZE_INPUT_PARAMS : Nat := 100 * 1024

def SIZE_OUTPUT_DATA : Nat := 500 * 1024

def SIZE_CONSOLE_OUTPUT : Nat := 1 * 1024 * 1024

def SIZE_ERROR_MESSAGE : Nat := 10 * 1024

def HEARTBEAT_THRESHOLD : Int := 90 * 1000

/-! ## Store operations (`db/queries.ts`)

Each conditional `UPDATE … WHERE …` is modelled by mapping the update over
the rows matching the WHERE clause; the reported `meta.changes` count is the
number of matching rows. -/

/-- `SELECT * FROM jobs WHERE id = ?` (first row). -/
def getJobById (s : Store) (jobId : String) : Option Job :=
  s.jobs.find? fun j => j.id == jobId

/-- `SELECT * FROM jobs WHERE job_hash = ?` (first row). -/
def getJobByHash (s : Store) (jobHash : String) : Option Job :=
  s.jobs.find? fun j => j.job_hash == jobHash

/-- `INSERT INTO jobs … VALUES (…, 'pending', now, now)`. -/
def createJob (s : Store) (now : Int) (id jobHash jobType : String)
    (inputParams : JVal) : Store :=
  { s with jobs := s.jobs ++
      [{ id := id, job_hash := jobHash, job_type := jobType,
         input_params := inputParams, status := .pending,
         created_at := now, updated_at := now }] }

/-- WHERE clause of `claimJob`: `id = ? AND status = 'pending'`. -/
def claimMatches (jobId : String) (j : Job) : Bool :=
  j.id == jobId && j.status == .pending

/-- `claimJob`: conditional update to `claimed`; succeeds iff at least one
row changed. -/
def claimJob (s : Store) (now : Int) (jobId runnerId : String) : Store × Bool :=
  ({ s with jobs := s.jobs.map fun j =>
      if claimMatches jobId j then
        { j with status := .claimed, claimed_by := some runnerId,
                 claimed_at := some now, last_heartbeat := some now,
                 updated_at := now }
      else j },
   s.jobs.countP (fun j => claimMatches jobId j) != 0)

/-- WHERE clause of heartbeat/complete/fail:
`id = ? AND claimed_by = ? AND status IN ('claimed', 'in_progress')`. -/
def liveMatches (jobId runnerId : String) (j : Job) : Bool :=
  j.id == jobId && j.claimed_by == some runnerId &&
    (j.status == .claimed || j.status == .in_progress)

/-- `updateJobHeartbeat`: conditional update to `in_progress` carrying
progress and console output. -/
def updateJobHeartbeat (s : Store) (now : Int) (jobId runnerId : String)
    (progressCurrent progressTotal : Int) (consoleOutput : String) :
    Store × Bool :=
  ({ s with jobs := s.jobs.map fun j =>
      if liveMatches jobId runnerId j then
        { j with status := .in_progress,
                 progress_current := some progressCurrent,
                 progress_total := some progressTotal,
                 console_output := consoleOutput,
                 last_heartbeat := some now, updated_at := now }
      else j },
   s.jobs.countP (fun j => liveMatches jobId runnerId j) != 0)

/-- `completeJob`: conditional update to `completed` storing the serialized
output (`JSON.stringify(output_data)`, which parses back to the value). -/
def completeJob (s : Store) (now : Int) (jobId runnerId : String)
    (outputData : JVal) (consoleOutput : String) : Store × Bool :=
  ({ s with jobs := s.jobs.map fun j =>
      if liveMatches jobId runnerId j then
        { j with status := .completed, output_data := some (some outputData),
                 console_output := consoleOutput, updated_at := now }
      else j },
   s.jobs.countP (fun j => liveMatches jobId runnerId j) != 0)

/-- `failJob`: conditional update to `failed` storing the error message. -/
def failJob (s : Store) (now : Int) (jobId runnerId : String)
    (errorMessage consoleOutput : String) : Store × Bool :=
  ({ s with jobs := s.jobs.map fun j =>
      if liveMatches jobId runnerId j then
        { j with status := .failed, error_message := some errorMessage,
                 console_output := consoleOutput, updated_at := now }
      else j },
   s.jobs.countP (fun j => liveMatches jobId runnerId j) != 0)

/-- WHERE clause of the stale sweep:
`status IN ('claimed', 'in_progress') AND last_heartbeat < threshold`
(a NULL `last_heartbeat` compares as unknown and never matches). -/
def staleMatches (threshold : Int) (j : Job) : Bool :=
  (j.status == .claimed || j.status == .in_progress) &&
    (match j.last_heartbeat with
     | some hb => hb < threshold
     | none => false)

/-- `checkStaleJobs`: bulk-fail every claimed/in-progress job whose last
heartbeat is older than `now - HEARTBEAT_THRESHOLD`. -/
def checkStaleJobs (s : Store) (now : Int) : Store :=
  { s with jobs := s.jobs.map fun j =>
      if staleMatches (now - HEARTBEAT_THRESHOLD) j then
        { j with status := .failed,
                 error_message := some "Job timed out - no heartbeat received",
                 updated_at := now }
      else j }

/-- `registerRunner`: `INSERT … ON CONFLICT(id) DO UPDATE SET name,
capabilities, last_seen` (an upsert keyed on the primary key `id`;
`registered_at` is only written by the INSERT arm). -/
def registerRunner (s : Store) (now : Int) (id name : String)
    (capabilities : List String) : Store :=
  if s.runners.any (fun r => r.id == id) then
    { s with runners := s.runners.map fun r =>
        if r.id == id then
          { r with name := name, capabilities := capabilities, last_seen := now }
        else r }
  else
    { s with runners := s.runners ++
        [{ id := id, name := name, capabilities := capabilities,
           registered_at := now, last_seen := now }] }

/-- `updateRunnerLastSeen`: `UPDATE runners SET last_seen = ? WHERE id = ?`. -/
def updateRunnerLastSeen (s : Store) (now : Int) (runnerId : String) : Store :=
  { s with runners := s.runners.map fun r =>
      if r.id == runnerId then { r with last_seen := now } else r }

/-- `SELECT * FROM runners WHERE id = ?`. -/
def getRunnerById (s : Store) (runnerId : String) : Option Runner :=
  s.runners.find? fun r => r.id == runnerId

/-- `deleteJob`: `DELETE FROM jobs WHERE id = ?`; succeeds iff a row went. -/
def deleteJob (s : Store) (jobId : String) : Store × Bool :=
  ({ s with jobs := s.jobs.filter fun j => !(j.id == jobId) },
   s.jobs.any fun j => j.id == jobId)

/-! ## Validators (`utils/validation.ts`)

JS `String.prototype.length` counts UTF-16 code units; the model counts
characters, which agrees on all payloads without supplementary-plane
characters. -/

/-- `validateJobInput`: serialized params within 100 KiB and a non-empty
job type.  (The `typeof` object check is built into the model's types; the
claims quantify over object-shaped `input_params` only.) -/
def validateJobInput (jobType : String) (inputParams : List (String × JVal)) : Bool :=
  (stringify (.obj inputParams)).length ≤ SIZE_INPUT_PARAMS && !(jobType == "")

/-- `validateJobOutput`: serialized output within 500 KiB. -/
def validateJobOutput (outputData : JVal) : Bool :=
  (stringify outputData).length ≤ SIZE_OUTPUT_DATA

/-- `validateConsoleOutput`: console within 1 MiB. -/
def validateConsoleOutput (consoleOutput : String) : Bool :=
  consoleOutput.length ≤ SIZE_CONSOLE_OUTPUT

/-- `validateErrorMessage`: error message within 10 KiB. -/
def validateErrorMessage (errorMessage : String) : Bool :=
  errorMessage.length ≤ SIZE_ERROR_MESSAGE

/-! ## Freshness probe (`utils/validation.ts`) -/

/-- The three fields of a fetched `figpack.json` document that
`checkFigpackExpiration` inspects: `deleted` records the JS truthiness of
that field, `pinned = some true` exactly when `pinned === true`, and
`expiration = some e` exactly when `typeof expiration === "number"`. -/
structure Figpack where
  deleted : Bool := false
  pinned : Option Bool := none
  expiration : Option Int := none
deriving DecidableEq, Repr

/-- JS `typeof v === 'object'`: true for null, arrays and objects. -/
def isObjType : JVal → Bool
  | .null => true
  | .arr _ => true
  | .obj _ => true
  | _ => false

mutual

/-- `extractFigpackUrls`: recursively collect every string value stored
under a field named `figpack_url`; array elements are visited (their index
keys never equal `figpack_url`), non-object scalars are not descended into. -/
def extractFigpackUrls : JVal → List String
  | .obj fs => extractFromFields fs
  | .arr es => extractFromElems es
  | _ => []

def extractFromFields : List (String × JVal) → List String
  | [] => []
  | (k, v) :: fs =>
    (if k == "figpack_url" then
       match v with
       | .str urlStr => [urlStr]
       | v' => if isObjType v' then extractFigpackUrls v' else []
     else if isObjType v then extractFigpackUrls v else []) ++ extractFromFields fs

def extractFromElems : List JVal → List String
  | [] => []
  | v :: vs =>
    (if isObjType v then extractFigpackUrls v else []) ++ extractFromElems vs

end

/-- JS `String.prototype.endsWith`, modelled over character sequences. -/
def strEndsWith (s suffixStr : String) : Bool :=
  s.data.drop (s.data.length - suffixStr.data.length) == suffixStr.data &&
    s.data.length ≥ suffixStr.data.length

/-- Remove the last `n` characters of a string (the effect of replacing a
known `n`-character suffix). -/
def strDropRight (s : String) (n : Nat) : String :=
  String.mk (s.data.take (s.data.length - n))

/-- `validateFigpackUrl`: the URL must end with `/index.html`; the trailing
`index.html` is replaced by `figpack.json`
(`url.replace(/\/index\.html$/, '/figpack.json')`). -/
def validateFigpackUrl (url : String) : Option String :=
  if strEndsWith url "/index.html" then
    some (strDropRight url "index.html".length ++ "figpack.json")
  else none

/-- `checkFigpackExpiration`: fetch the document (oracle); invalid on fetch
error / non-2xx / parse failure; then invalid if `deleted` is truthy, valid
if `pinned === true`, else valid iff a numeric `expiration` lies in the
future; invalid when neither is set. -/
def checkFigpackExpiration (fetchJson : String → Option Figpack) (now : Int)
    (figpackJsonUrl : String) : Bool :=
  match fetchJson figpackJsonUrl with
  | none => false
  | some d =>
    if d.deleted then false
    else if d.pinned == some true then true
    else
      match d.expiration with
      | some e => decide (e > now)
      | none => false

/-- `validateJobResult`: valid when `output_data` is absent; invalid when it
does not parse; otherwise every extracted URL must pass shape validation and
`checkFigpackExpiration` (an empty URL list is vacuously valid, as in the
source's early return). -/
def validateJobResult (fetchJson : String → Option Figpack) (now : Int)
    (job : Job) : Bool :=
  match job.output_data with
  | none => true
  | some none => false
  | some (some v) =>
    (extractFigpackUrls v).all fun url =>
      match validateFigpackUrl url with
      | none => false
      | some fj => checkFigpackExpiration fetchJson now fj

/-! ## Handlers (`handlers/jobs.ts`, `handlers/runner.ts`)

Each handler is modelled as a function from the request data and current
store to the HTTP status (plus the response fields the claims mention) and
the resulting store.  The fire-and-forget notifier performs no store write
and is not modelled; JSON-body parse failures and store exceptions (the
`catch` → 500 paths) are outside the state space. -/

/-- The cached-result echo `JSON.parse(existingJob.output_data || '{}')`:
a NULL (or empty) column parses the `'{}'` fallback to an empty object; a
parsing column echoes its value.  A non-parsing column would throw (the
handler's 500 path); that case is unreachable in the branch using this
function because `validateJobResult` already rejected it, and is mapped to
`none`. -/
def outputEcho : Option (Option JVal) → Option JVal
  | none => some (.obj [])
  | some (some v) => some v
  | some none => none

/-- The response fields of submit that the claims inspect. -/
structure SubmitResp where
  http : Nat
  job_id : Option String
  jstatus : Option JobStatus
  result_output : Option (Option JVal)
deriving DecidableEq, Repr

/-- `handleSubmitJob`. -/
def handleSubmitJob (s : Store) (now : Int) (freshId : String)
    (fetchJson : String → Option Figpack) (jobType : String)
    (inputParams : List (String × JVal)) : SubmitResp × Store :=
  if !(validateJobInput jobType inputParams) then
    ({ http := 400, job_id := none, jstatus := none, result_output := none }, s)
  else
    let jobHash := generateJobHash jobType inputParams
    match getJobByHash s jobHash with
    | some existing =>
      if existing.status == .completed then
        if validateJobResult fetchJson now existing then
          ({ http := 200, job_id := some existing.id, jstatus := some .completed,
             result_output := some (outputEcho existing.output_data) }, s)
        else
          ({ http := 200, job_id := some existing.id, jstatus := some .expired,
             result_output := none }, (deleteJob s existing.id).1)
      else if existing.status == .failed then
        ({ http := 200, job_id := some existing.id, jstatus := some .failed,
           result_output := none }, s)
      else
        ({ http := 200, job_id := some existing.id, jstatus := some existing.status,
           result_output := none }, s)
    | none =>
      ({ http := 201, job_id := some freshId, jstatus := some .pending,
         result_output := none },
       createJob s now freshId jobHash jobType (.obj inputParams))

/-- The response fields of check that the claims inspect. -/
structure CheckResp where
  http : Nat
  found : Bool
  job_id : Option String
  jstatus : Option JobStatus
  result_output : Option (Option JVal)
deriving DecidableEq, Repr

/-- `handleCheckJob`: the read-only twin of submit (never creates). -/
def handleCheckJob (s : Store) (now : Int)
    (fetchJson : String → Option Figpack) (jobType : String)
    (inputParams : List (String × JVal)) : CheckResp × Store :=
  if !(validateJobInput jobType inputParams) then
    ({ http := 400, found := false, job_id := none, jstatus := none,
       result_output := none }, s)
  else
    match getJobByHash s (generateJobHash jobType inputParams) with
    | none =>
      ({ http := 200, found := false, job_id := none, jstatus := none,
         result_output := none }, s)
    | some existing =>
      if existing.status == .completed then
        if validateJobResult fetchJson now existing then
          ({ http := 200, found := true, job_id := some existing.id,
             jstatus := some .completed,
             result_output := some (outputEcho existing.output_data) }, s)
        else
          ({ http := 200, found := true, job_id := some existing.id,
             jstatus := some .expired, result_output := none },
           (deleteJob s existing.id).1)
      else if existing.status == .failed then
        ({ http := 200, found := true, job_id := some existing.id,
           jstatus := some .failed, result_output := none }, s)
      else
        ({ http := 200, found := true, job_id := some existing.id,
           jstatus := some existing.status, result_output := none }, s)

/-- `handleClaimJob`: touch the runner, attempt the conditional claim;
409 when no row changed, else re-read the job (404 if it vanished, 200
otherwise). -/
def handleClaimJob (s : Store) (now : Int) (jobId runnerId : String) :
    Nat × Store :=
  let s1 := updateRunnerLastSeen s now runnerId
  let r := claimJob s1 now jobId runnerId
  if !r.2 then (409, r.1)
  else
    match getJobById r.1 jobId with
    | none => (404, r.1)
    | some _ => (200, r.1)

/-- `handleHeartbeat`: validate console size (400 on violation), touch the
runner, run the conditional update; 400 when no row matched. -/
def handleHeartbeat (s : Store) (now : Int) (jobId runnerId : String)
    (progressCurrent progressTotal : Int) (consoleOutput : String) :
    Nat × Store :=
  if !(validateConsoleOutput consoleOutput) then (400, s)
  else
    let s1 := updateRunnerLastSeen s now runnerId
    let r := updateJobHeartbeat s1 now jobId runnerId progressCurrent
      progressTotal consoleOutput
    if !r.2 then (400, r.1) else (200, r.1)

/-- `handleCompleteJob`: validate output then console (400 on violation),
touch the runner, run the conditional update; 400 when no row matched. -/
def handleCompleteJob (s : Store) (now : Int) (jobId runnerId : String)
    (outputData : JVal) (consoleOutput : String) : Nat × Store :=
  if !(validateJobOutput outputData) then (400, s)
  else if !(validateConsoleOutput consoleOutput) then (400, s)
  else
    let s1 := updateRunnerLastSeen s now runnerId
    let r := completeJob s1 now jobId runnerId outputData consoleOutput
    if !r.2 then (400, r.1) else (200, r.1)

/-- `handleErrorJob`: validate error message then console (400 on
violation), touch the runner, run the conditional update; 400 when no row
matched. -/
def handleErrorJob (s : Store) (now : Int) (jobId runnerId : String)
    (errorMessage consoleOutput : String) : Nat × Store :=
  if !(validateErrorMessage errorMessage) then (400, s)
  else if !(validateConsoleOutput consoleOutput) then (400, s)
  else
    let s1 := updateRunnerLastSeen s now runnerId
    let r := failJob s1 now jobId runnerId errorMessage consoleOutput
    if !r.2 then (400, r.1) else (200, r.1)

/-! ## Claim C7 — the stale sweep -/

/-- The sweep's WHERE clause, characterised in spec terms. -/
theorem staleMatches_iff (threshold : Int) (j : Job) :
    staleMatches threshold j = true ↔
      (j.status = .claimed ∨ j.status = .in_progress) ∧
        ∃ hb, j.last_heartbeat = some hb ∧ hb < threshold := by
  cases hhb : j.last_heartbeat with
  | none => simp [staleMatches, hhb]
  | some hb =>
    simp only [staleMatches, hhb, Bool.and_eq_true, Bool.or_eq_true, beq_iff_eq,
      decide_eq_true_eq, Option.some.injEq]
    constructor
    · rintro ⟨hst, hlt⟩
      exact ⟨hst, hb, rfl, hlt⟩
    · rintro ⟨hst, hb', heq, hlt⟩
      exact ⟨hst, heq ▸ hlt⟩

/-- C7: one sweep invocation turns exactly the claimed/in-progress jobs whose
last_heartbeat is strictly older than now − 90000 ms into failed jobs with
the fixed timeout message and updated_at = now, leaving their other fields,
every other job, and all runner rows unchanged. -/
theorem checkStaleJobs_exact (s : Store) (now : Int) :
    (checkStaleJobs s now).runners = s.runners ∧
    List.Forall₂ (fun j j' =>
      ((j.status = .claimed ∨ j.status = .in_progress) ∧
          (∃ hb, j.last_heartbeat = some hb ∧ hb < now - 90000) →
        j'.status = .failed ∧
        j'.error_message = some "Job timed out - no heartbeat received" ∧
        j'.updated_at = now ∧
        j'.id = j.id ∧ j'.job_hash = j.job_hash ∧ j'.job_type = j.job_type ∧
        j'.input_params = j.input_params ∧ j'.created_at = j.created_at ∧
        j'.claimed_by = j.claimed_by ∧ j'.claimed_at = j.claimed_at ∧
        j'.progress_current = j.progress_current ∧
        j'.progress_total = j.progress_total ∧
        j'.console_output = j.console_output ∧
        j'.output_data = j.output_data ∧
        j'.last_heartbeat = j.last_heartbeat) ∧
      (¬ ((j.status = .claimed ∨ j.status = .in_progress) ∧
          (∃ hb, j.last_heartbeat = some hb ∧ hb < now - 90000)) →
        j' = j))
      s.jobs (checkStaleJobs s now).jobs := by
  refine ⟨rfl, ?_⟩
  have hth : now - HEARTBEAT_THRESHOLD = now - 90000 := by
    norm_num [HEARTBEAT_THRESHOLD]
  show List.Forall₂ _ s.jobs (s.jobs.map _)
  rw [List.forall₂_map_right_iff, List.forall₂_same]
  intro j _
  constructor
  · intro hc
    rw [if_pos (by rw [staleMatches_iff, hth]; exact hc)]
    exact ⟨rfl, rfl, rfl, rfl, rfl, rfl, rfl, rfl, rfl, rfl, rfl, rfl, rfl, rfl, rfl⟩
  · intro hc
    rw [if_neg (by rw [staleMatches_iff, hth]; exact hc)]

/-- A claimed job whose heartbeat is 90001 ms old at `now = 100000`
(heartbeat at 9999). -/
def staleDemoJob : Job :=
  { id := "j1", job_hash := "h1", job_type := "T", input_params := .obj [],
    status := .claimed, created_at := 0, updated_at := 9999,
    claimed_by := some "r1", claimed_at := some 9999,
    last_heartbeat := some 9999 }

/-- A pending job untouched by the sweep. -/
def freshDemoJob : Job :=
  { id := "j2", job_hash := "h2", job_type := "T", input_params := .obj [],
    status := .pending, created_at := 0, updated_at := 0 }

/-- Witness for C7: sweeping a two-job store at `now = 100000` fails the
stale claimed job (heartbeat at 9999 < 100000 − 90000) and leaves the
pending job alone. -/
theorem checkStaleJobs_exact_witness :
    ((checkStaleJobs ⟨[staleDemoJob, freshDemoJob], []⟩ 100000).runners =
        ([] : List Runner)) ∧
    (checkStaleJobs ⟨[staleDemoJob, freshDemoJob], []⟩ 100000).jobs.map
        (fun j => (j.status, j.error_message, j.claimed_by)) =
      [(.failed, some "Job timed out - no heartbeat received", some "r1"),
       (.pending, none, none)] :=
  ⟨(checkStaleJobs_exact ⟨[staleDemoJob, freshDemoJob], []⟩ 100000).1, by decide⟩

/-! ## Claim C10 — runner registration upsert -/

/-- C10: `register_runner` with an id already present replaces name and
capabilities and sets last_seen, but keeps that runner's registered_at and
leaves every other runner and all jobs unchanged; with a fresh id it appends
a row with registered_at = last_seen = now. -/
theorem registerRunner_exact (s : Store) (now : Int) (rid rname : String)
    (caps : List String) :
    (registerRunner s now rid rname caps).jobs = s.jobs ∧
    ((∃ r ∈ s.runners, r.id = rid) →
      List.Forall₂ (fun r r' =>
        (r.id = rid →
          r'.id = r.id ∧ r'.name = rname ∧ r'.capabilities = caps ∧
          r'.registered_at = r.registered_at ∧ r'.last_seen = now) ∧
        (r.id ≠ rid → r' = r))
        s.runners (registerRunner s now rid rname caps).runners) ∧
    ((¬ ∃ r ∈ s.runners, r.id = rid) →
      (registerRunner s now rid rname caps).runners =
        s.runners ++ [{ id := rid, name := rname, capabilities := caps,
                        registered_at := now, last_seen := now }]) := by
  have hany : (s.runners.any fun r => r.id == rid) = true ↔
      ∃ r ∈ s.runners, r.id = rid := by
    simp [List.any_eq_true]
  by_cases hex : ∃ r ∈ s.runners, r.id = rid
  · have hb : (s.runners.any fun r => r.id == rid) = true := hany.mpr hex
    refine ⟨by simp [registerRunner, hb], fun _ => ?_, fun hne => absurd hex hne⟩
    rw [registerRunner, if_pos hb]
    show List.Forall₂ _ s.runners (s.runners.map _)
    rw [List.forall₂_map_right_iff, List.forall₂_same]
    intro r _
    constructor
    · intro hid
      rw [if_pos (beq_iff_eq.mpr hid)]
      exact ⟨rfl, rfl, rfl, rfl, rfl⟩
    · intro hid
      rw [if_neg (by simpa using hid)]
  · have hb : (s.runners.any fun r => r.id == rid) = false := by
      rw [Bool.eq_false_iff]
      intro h
      exact hex (hany.mp h)
    exact ⟨by simp [registerRunner, hb], fun h => absurd h hex,
      fun _ => by rw [registerRunner, if_neg (by simp [hb])]⟩

/-- A registered runner used by witnesses. -/
def demoRunner : Runner :=
  { id := "r1", name := "N1", capabilities := ["T"], registered_at := 5,
    last_seen := 5 }

/-- Witness for C10: re-registering `"r1"` at `now = 50` with a new name and
capabilities keeps `registered_at = 5` and touches no job. -/
theorem registerRunner_exact_witness :
    (registerRunner ⟨[], [demoRunner]⟩ 50 "r1" "N2" ["T2"]).jobs = [] ∧
    List.Forall₂ (fun r r' =>
        (r.id = "r1" →
          r'.id = r.id ∧ r'.name = "N2" ∧ r'.capabilities = ["T2"] ∧
          r'.registered_at = r.registered_at ∧ r'.last_seen = 50) ∧
        (r.id ≠ "r1" → r' = r))
      [demoRunner] (registerRunner ⟨[], [demoRunner]⟩ 50 "r1" "N2" ["T2"]).runners :=
  ⟨(registerRunner_exact ⟨[], [demoRunner]⟩ 50 "r1" "N2" ["T2"]).1,
   (registerRunner_exact ⟨[], [demoRunner]⟩ 50 "r1" "N2" ["T2"]).2.1
     ⟨demoRunner, by simp, rfl⟩⟩

/-! ## Claim C5 — the freshness probe -/

/-- One URL of the probe loop, characterised in spec terms. -/
theorem probeUrl_iff (fetchJson : String → Option Figpack) (now : Int)
    (url : String) :
    (match validateFigpackUrl url with
     | none => false
     | some fj => checkFigpackExpiration fetchJson now fj) = true ↔
      strEndsWith url "/index.html" = true ∧
      ∃ d, fetchJson (strDropRight url "index.html".length ++ "figpack.json") = some d ∧
        d.deleted = false ∧
        (d.pinned = some true ∨ ∃ e, d.expiration = some e ∧ e > now) := by
  by_cases hend : strEndsWith url "/index.html" = true
  · rw [validateFigpackUrl, if_pos hend]
    simp only [hend, true_and]
    cases hf : fetchJson (strDropRight url "index.html".length ++ "figpack.json") with
    | none => simp [checkFigpackExpiration, hf]
    | some d =>
      simp only [checkFigpackExpiration, hf]
      by_cases hdel : d.deleted = true
      · simp [hdel]
      · rw [Bool.not_eq_true] at hdel
        rw [if_neg (by simp [hdel])]
        by_cases hpin : d.pinned = some true
        · simp [hpin, hdel]
        · rw [if_neg (by simpa using hpin)]
          cases hexp : d.expiration with
          | none => simp [hdel, hpin, hexp]
          | some e => simp [hdel, hpin, hexp]
  · rw [validateFigpackUrl, if_neg hend]
    simp [hend]

/-- C5: for a completed job whose stored output column is non-null (as every
`completeJob` write leaves it), the freshness probe accepts iff the stored
text parses as JSON and every `figpack_url` string field at any depth ends
with `/index.html` and its derived `figpack.json` document is fetched
successfully with a falsy `deleted` and (`pinned === true` or a numeric
`expiration` in the future); in particular an output with zero `figpack_url`
fields is always valid, and a fetch error, non-2xx response, JSON-parse
failure, or URL shape mismatch (all mapped to `none` by the oracle or the
shape check) makes it invalid. -/
theorem validateJobResult_iff (fetchJson : String → Option Figpack) (now : Int)
    (job : Job) (os : Option JVal) (hout : job.output_data = some os) :
    (validateJobResult fetchJson now job = true ↔
      ∃ v, os = some v ∧
        ∀ url ∈ extractFigpackUrls v,
          strEndsWith url "/index.html" = true ∧
          ∃ d, fetchJson (strDropRight url "index.html".length ++ "figpack.json") = some d ∧
            d.deleted = false ∧
            (d.pinned = some true ∨ ∃ e, d.expiration = some e ∧ e > now)) ∧
    (∀ v, os = some v → extractFigpackUrls v = [] →
      validateJobResult fetchJson now job = true) := by
  constructor
  · rw [validateJobResult, hout]
    cases os with
    | none => simp
    | some v =>
      simp only [Option.some.injEq, List.all_eq_true]
      constructor
      · intro h
        exact ⟨v, rfl, fun url hm => (probeUrl_iff fetchJson now url).mp (h url hm)⟩
      · rintro ⟨v', rfl, h⟩
        exact fun url hm => (probeUrl_iff fetchJson now url).mpr (h url hm)
  · rintro v rfl hurls
    simp [validateJobResult, hout, hurls]

/-- Output value used by the C5 witness: one `figpack_url` at depth two. -/
def demoOutput : JVal :=
  .obj [("fig", .obj [("figpack_url", .str "https://x/a/index.html")])]

/-- Completed job carrying `demoOutput`. -/
def demoCompletedJob : Job :=
  { id := "j1", job_hash := "h1", job_type := "T", input_params := .obj [],
    status := .completed, created_at := 0, updated_at := 3,
    claimed_by := some "r1", claimed_at := some 1,
    output_data := some (some demoOutput), last_heartbeat := some 2 }

/-- Fetch oracle serving a pinned document at the derived URL. -/
def demoFetch : String → Option Figpack := fun u =>
  if u == "https://x/a/figpack.json" then
    some { deleted := false, pinned := some true }
  else none

/-- Witness for C5: the probe accepts `demoCompletedJob` under `demoFetch`,
via the right-to-left direction of the characterisation. -/
theorem validateJobResult_iff_witness :
    validateJobResult demoFetch 100 demoCompletedJob = true :=
  ((validateJobResult_iff demoFetch 100 demoCompletedJob
      (some demoOutput) rfl).1).mpr
    ⟨demoOutput, rfl, by
      intro url hurl
      rw [show extractFigpackUrls demoOutput = ["https://x/a/index.html"] from rfl]
        at hurl
      rw [List.mem_singleton.mp hurl]
      exact ⟨by decide, ⟨{ deleted := false, pinned := some true }, by decide,
        rfl, Or.inl rfl⟩⟩⟩

/-! ## Claim C3 — atomic claim, claim races, and claimed_by stability -/

/-- `claimJob` reports success exactly when a pending row with the id exists. -/
theorem claimJob_success_iff (s : Store) (now : Int) (jobId rid : String) :
    (claimJob s now jobId rid).2 = true ↔
      ∃ j ∈ s.jobs, j.id = jobId ∧ j.status = .pending := by
  show (s.jobs.countP (fun j => claimMatches jobId j) != 0) = true ↔ _
  rw [bne_iff_ne, ← Nat.pos_iff_ne_zero, List.countP_pos]
  simp [claimMatches]

/-- On success the conditional claim update writes exactly the advertised
fields. -/
theorem claimJob_sets_fields (s : Store) (now : Int) (jobId rid : String)
    (j : Job) (hj : j ∈ s.jobs) (hid : j.id = jobId) (hp : j.status = .pending) :
    { j with status := .claimed, claimed_by := some rid, claimed_at := some now,
             last_heartbeat := some now, updated_at := now } ∈
      (claimJob s now jobId rid).1.jobs := by
  have hm : claimMatches jobId j = true := by simp [claimMatches, hid, hp]
  refine List.mem_map.mpr ⟨j, hj, ?_⟩
  simp [hm]

/-- All branches of the claim handler return the post-update store. -/
theorem handleClaimJob_store (s : Store) (now : Int) (jobId rid : String) :
    (handleClaimJob s now jobId rid).2 =
      (claimJob (updateRunnerLastSeen s now rid) now jobId rid).1 := by
  simp only [handleClaimJob]
  split
  · rfl
  · split <;> rfl

/-- After a successful claim no row with the id is pending any more. -/
theorem claimJob_no_pending (s : Store) (now : Int) (jobId rid : String) :
    ∀ j' ∈ (claimJob s now jobId rid).1.jobs,
      ¬(j'.id = jobId ∧ j'.status = .pending) := by
  intro j' hj'
  obtain ⟨x, _, hfx⟩ := List.mem_map.mp hj'
  rintro ⟨hid', hp'⟩
  by_cases hm : claimMatches jobId x = true
  · rw [if_pos hm] at hfx
    rw [← hfx] at hp'
    exact JobStatus.noConfusion hp'
  · rw [if_neg hm] at hfx
    rw [← hfx] at hid' hp'
    exact hm (by simp [claimMatches, hid', hp'])

/-- Two sequential claims on a pending job: the first responds 200, the
second 409. -/
theorem claim_race (s : Store) (now1 now2 : Int) (jobId r1 r2 : String)
    (j : Job) (hj : j ∈ s.jobs) (hid : j.id = jobId) (hp : j.status = .pending) :
    (handleClaimJob s now1 jobId r1).1 = 200 ∧
    (handleClaimJob (handleClaimJob s now1 jobId r1).2 now2 jobId r2).1 = 409 := by
  have hjobs1 : (updateRunnerLastSeen s now1 r1).jobs = s.jobs := rfl
  have hsucc : (claimJob (updateRunnerLastSeen s now1 r1) now1 jobId r1).2 = true :=
    (claimJob_success_iff _ _ _ _).mpr ⟨j, by rw [hjobs1]; exact hj, hid, hp⟩
  constructor
  · have hfound : ∃ x ∈ (claimJob (updateRunnerLastSeen s now1 r1) now1 jobId r1).1.jobs,
        (x.id == jobId) = true := by
      refine ⟨{ j with status := .claimed,
                       claimed_by := some r1,
                       claimed_at := some now1,
                       last_heartbeat := some now1,
                       updated_at := now1 }, ?_, by simp [hid]⟩
      exact claimJob_sets_fields _ _ _ _ j (by rw [hjobs1]; exact hj) hid hp
    have hsome : (getJobById (claimJob (updateRunnerLastSeen s now1 r1) now1 jobId r1).1
        jobId).isSome := by
      rw [getJobById, List.find?_isSome]
      exact hfound
    simp only [handleClaimJob, hsucc, Bool.not_true]
    rw [if_neg (by simp)]
    cases hfind :
        getJobById (claimJob (updateRunnerLastSeen s now1 r1) now1 jobId r1).1 jobId with
    | none => rw [hfind] at hsome; simp at hsome
    | some x => rfl
  · have hs2 : (handleClaimJob s now1 jobId r1).2 =
        (claimJob (updateRunnerLastSeen s now1 r1) now1 jobId r1).1 :=
      handleClaimJob_store s now1 jobId r1
    have hnopending := claimJob_no_pending (updateRunnerLastSeen s now1 r1) now1 jobId r1
    have hfail : (claimJob (updateRunnerLastSeen (handleClaimJob s now1 jobId r1).2
        now2 r2) now2 jobId r2).2 = false := by
      rw [Bool.eq_false_iff, ne_eq, claimJob_success_iff]
      rintro ⟨j'', hj'', hid'', hp''⟩
      have : j'' ∈ (claimJob (updateRunnerLastSeen s now1 r1) now1 jobId r1).1.jobs := by
        have hjobs2 : (updateRunnerLastSeen (handleClaimJob s now1 jobId r1).2
            now2 r2).jobs = (handleClaimJob s now1 jobId r1).2.jobs := rfl
        rw [hjobs2, hs2] at hj''
        exact hj''
      exact hnopending j'' this ⟨hid'', hp''⟩
    set s2 := (handleClaimJob s now1 jobId r1).2 with hs2eq
    simp [handleClaimJob, hfail]

/-- Both upsert branches of runner registration leave jobs untouched. -/
theorem registerRunner_jobs (s : Store) (now : Int) (rid rname : String)
    (caps : List String) : (registerRunner s now rid rname caps).jobs = s.jobs := by
  rw [registerRunner]
  split <;> rfl

/-- The store-mutating operations reachable from the HTTP surface
(`router.ts`): every route is read-only, one of these, or a composition of
them (batch delete iterates `delete`).  The helper `markJobExpired` has no
caller anywhere in the repository and is omitted. -/
inductive Op where
  | submit (now : Int) (freshId : String) (fetchJson : String → Option Figpack)
      (jobType : String) (inputParams : List (String × JVal))
  | check (now : Int) (fetchJson : String → Option Figpack)
      (jobType : String) (inputParams : List (String × JVal))
  | claim (now : Int) (jobId runnerId : String)
  | heartbeat (now : Int) (jobId runnerId : String)
      (progressCurrent progressTotal : Int) (consoleOutput : String)
  | complete (now : Int) (jobId runnerId : String) (outputData : JVal)
      (consoleOutput : String)
  | fail (now : Int) (jobId runnerId : String)
      (errorMessage consoleOutput : String)
  | sweep (now : Int)
  | register (now : Int) (id name : String) (capabilities : List String)
  | touch (now : Int) (runnerId : String)
  | delete (jobId : String)

/-- The store after an operation. -/
def applyOp : Op → Store → Store
  | .submit now fid fetchJson t p, s => (handleSubmitJob s now fid fetchJson t p).2
  | .check now fetchJson t p, s => (handleCheckJob s now fetchJson t p).2
  | .claim now jobId rid, s => (handleClaimJob s now jobId rid).2
  | .heartbeat now jobId rid pc pt c, s => (handleHeartbeat s now jobId rid pc pt c).2
  | .complete now jobId rid o c, s => (handleCompleteJob s now jobId rid o c).2
  | .fail now jobId rid e c, s => (handleErrorJob s now jobId rid e c).2
  | .sweep now, s => checkStaleJobs s now
  | .register now i n caps, s => registerRunner s now i n caps
  | .touch now rid, s => updateRunnerLastSeen s now rid
  | .delete jobId, s => (deleteJob s jobId).1

/-- Environment assumption per operation: a freshly generated UUID does not
collide with a stored job id. -/
def opWf : Op → Store → Bool
  | .submit _ fid _ _ _, s => !((s.jobs.map Job.id).contains fid)
  | _, _ => true

/-- The store invariant: primary-key uniqueness of job ids, and pending jobs
are unclaimed (as `createJob` inserts them and nothing re-pends a job). -/
def StoreInv (s : Store) : Prop :=
  (s.jobs.map Job.id).Nodup ∧
    ∀ j ∈ s.jobs, j.status = .pending → j.claimed_by = none

theorem nodup_id_unique {jobs : List Job} (hnd : (jobs.map Job.id).Nodup)
    {j j' : Job} (hj : j ∈ jobs) (hj' : j' ∈ jobs) (hid : j'.id = j.id) :
    j' = j :=
  List.inj_on_of_nodup_map hnd hj' hj hid

theorem stable_of_subset {s : Store} {jobs' : List Job}
    (hnd : (s.jobs.map Job.id).Nodup) (hsub : jobs' ⊆ s.jobs) :
    ∀ j ∈ s.jobs, ∀ r, j.claimed_by = some r →
      ∀ j' ∈ jobs', j'.id = j.id → j'.claimed_by = some r := by
  intro j hj r hr j' hj' hid
  rw [nodup_id_unique hnd hj (hsub hj') hid]
  exact hr

theorem stable_of_map {s : Store} (f : Job → Job)
    (hnd : (s.jobs.map Job.id).Nodup)
    (hid : ∀ x, (f x).id = x.id)
    (hcb : ∀ x ∈ s.jobs, ∀ r, x.claimed_by = some r → (f x).claimed_by = some r) :
    ∀ j ∈ s.jobs, ∀ r, j.claimed_by = some r →
      ∀ j' ∈ s.jobs.map f, j'.id = j.id → j'.claimed_by = some r := by
  intro j hj r hr j' hj' hid'
  obtain ⟨x, hx, rfl⟩ := List.mem_map.mp hj'
  have hxid : x.id = j.id := by rw [← hid x]; exact hid'
  rw [nodup_id_unique hnd hj hx hxid]
  exact hcb j hj r hr

theorem nodup_ids_map {jobs : List Job} (f : Job → Job)
    (hid : ∀ x, (f x).id = x.id) (hnd : (jobs.map Job.id).Nodup) :
    ((jobs.map f).map Job.id).Nodup := by
  rw [List.map_map]
  have heq : jobs.map (Job.id ∘ f) = jobs.map Job.id :=
    List.map_congr_left fun x _ => hid x
  rw [heq]
  exact hnd

theorem inv_of_map {s : Store} (f : Job → Job) (runners' : List Runner)
    (hinv : StoreInv s) (hid : ∀ x, (f x).id = x.id)
    (hpend : ∀ x ∈ s.jobs, (f x).status = .pending → (f x).claimed_by = none) :
    StoreInv ⟨s.jobs.map f, runners'⟩ := by
  refine ⟨nodup_ids_map f hid hinv.1, ?_⟩
  intro j' hj' hp'
  obtain ⟨x, hx, rfl⟩ := List.mem_map.mp hj'
  exact hpend x hx hp'

theorem inv_of_subset {s : Store} (hinv : StoreInv s) (jobs' : List Job)
    (runners' : List Runner) (hsub : jobs' ⊆ s.jobs)
    (hnd' : (jobs'.map Job.id).Nodup) : StoreInv ⟨jobs', runners'⟩ :=
  ⟨hnd', fun j hj hp => hinv.2 j (hsub hj) hp⟩

theorem inv_of_append {s : Store} (hinv : StoreInv s) (nj : Job)
    (runners' : List Runner) (hfresh : nj.id ∉ s.jobs.map Job.id)
    (hpend : nj.status = .pending → nj.claimed_by = none) :
    StoreInv ⟨s.jobs ++ [nj], runners'⟩ := by
  constructor
  · rw [List.map_append]
    simp [List.nodup_append, hinv.1, hfresh]
  · intro j hj hp
    rcases List.mem_append.mp hj with h | h
    · exact hinv.2 j h hp
    · have hjn := List.mem_singleton.mp h
      subst hjn
      exact hpend hp

theorem stable_of_append {s : Store} (hnd : (s.jobs.map Job.id).Nodup)
    (nj : Job) (hfresh : nj.id ∉ s.jobs.map Job.id) :
    ∀ j ∈ s.jobs, ∀ r, j.claimed_by = some r →
      ∀ j' ∈ s.jobs ++ [nj], j'.id = j.id → j'.claimed_by = some r := by
  intro j hj r hr j' hj' hid
  rcases List.mem_append.mp hj' with h | h
  · exact stable_of_subset hnd (fun _ h => h) j hj r hr j' h hid
  · exfalso
    have hjn := List.mem_singleton.mp h
    subst hjn
    exact hfresh (hid ▸ List.mem_map_of_mem Job.id hj)

/-- The submit handler's store effect is: unchanged, a one-row deletion, or
the insertion of a fresh pending row. -/
theorem submit_store_cases (s : Store) (now : Int) (fid : String)
    (fetchJson : String → Option Figpack) (t : String)
    (p : List (String × JVal)) :
    (handleSubmitJob s now fid fetchJson t p).2 = s ∨
    (∃ jid, (handleSubmitJob s now fid fetchJson t p).2 =
      ⟨s.jobs.filter (fun j => !(j.id == jid)), s.runners⟩) ∨
    (handleSubmitJob s now fid fetchJson t p).2 =
      ⟨s.jobs ++ [{ id := fid, job_hash := generateJobHash t p, job_type := t,
                    input_params := .obj p, status := .pending,
                    created_at := now, updated_at := now }], s.runners⟩ := by
  simp only [handleSubmitJob]
  split
  · exact Or.inl rfl
  · split
    · split
      · split
        · exact Or.inl rfl
        · exact Or.inr (Or.inl ⟨_, rfl⟩)
      · split
        · exact Or.inl rfl
        · exact Or.inl rfl
    · exact Or.inr (Or.inr rfl)

/-- The check handler's store effect is: unchanged or a one-row deletion. -/
theorem check_store_cases (s : Store) (now : Int)
    (fetchJson : String → Option Figpack) (t : String)
    (p : List (String × JVal)) :
    (handleCheckJob s now fetchJson t p).2 = s ∨
    (∃ jid, (handleCheckJob s now fetchJson t p).2 =
      ⟨s.jobs.filter (fun j => !(j.id == jid)), s.runners⟩) := by
  simp only [handleCheckJob]
  split
  · exact Or.inl rfl
  · split
    · exact Or.inl rfl
    · split
      · split
        · exact Or.inl rfl
        · exact Or.inr ⟨_, rfl⟩
      · split
        · exact Or.inl rfl
        · exact Or.inl rfl

/-- The heartbeat handler's store effect. -/
theorem handleHeartbeat_store (s : Store) (now : Int) (jobId rid : String)
    (pc pt : Int) (c : String) :
    (handleHeartbeat s now jobId rid pc pt c).2 =
      if validateConsoleOutput c = true then
        (updateJobHeartbeat (updateRunnerLastSeen s now rid) now jobId rid pc pt c).1
      else s := by
  simp only [handleHeartbeat]
  by_cases hv : validateConsoleOutput c = true
  · rw [if_neg (by simp [hv]), if_pos hv]
    split <;> rfl
  · rw [if_pos (by simp [Bool.eq_false_iff.mpr hv]), if_neg hv]

/-- The complete handler's store effect. -/
theorem handleCompleteJob_store (s : Store) (now : Int) (jobId rid : String)
    (o : JVal) (c : String) :
    (handleCompleteJob s now jobId rid o c).2 =
      if validateJobOutput o = true ∧ validateConsoleOutput c = true then
        (completeJob (updateRunnerLastSeen s now rid) now jobId rid o c).1
      else s := by
  simp only [handleCompleteJob]
  by_cases ho : validateJobOutput o = true
  · by_cases hv : validateConsoleOutput c = true
    · rw [if_neg (by simp [ho]), if_neg (by simp [hv]),
        if_pos (show _ ∧ _ from ⟨ho, hv⟩)]
      split <;> rfl
    · rw [if_neg (by simp [ho]), if_pos (by simp [Bool.eq_false_iff.mpr hv]),
        if_neg (by simp [hv])]
  · rw [if_pos (by simp [Bool.eq_false_iff.mpr ho]), if_neg (by simp [ho])]

/-- The error handler's store effect. -/
theorem handleErrorJob_store (s : Store) (now : Int) (jobId rid : String)
    (e c : String) :
    (handleErrorJob s now jobId rid e c).2 =
      if validateErrorMessage e = true ∧ validateConsoleOutput c = true then
        (failJob (updateRunnerLastSeen s now rid) now jobId rid e c).1
      else s := by
  simp only [handleErrorJob]
  by_cases ho : validateErrorMessage e = true
  · by_cases hv : validateConsoleOutput c = true
    · rw [if_neg (by simp [ho]), if_neg (by simp [hv]),
        if_pos (show _ ∧ _ from ⟨ho, hv⟩)]
      split <;> rfl
    · rw [if_neg (by simp [ho]), if_pos (by simp [Bool.eq_false_iff.mpr hv]),
        if_neg (by simp [hv])]
  · rw [if_pos (by simp [Bool.eq_false_iff.mpr ho]), if_neg (by simp [ho])]

/-- Every reachable operation preserves the store invariant, and never
changes a non-null `claimed_by` of a surviving row. -/
theorem applyOp_inv_stable (op : Op) (s : Store) (hwf : opWf op s = true)
    (hinv : StoreInv s) :
    StoreInv (applyOp op s) ∧
    ∀ j ∈ s.jobs, ∀ r, j.claimed_by = some r →
      ∀ j' ∈ (applyOp op s).jobs, j'.id = j.id → j'.claimed_by = some r := by
  cases op with
  | submit now fid fetchJson t p =>
    have hfresh : fid ∉ s.jobs.map Job.id := by
      have h : ∀ x ∈ s.jobs, ¬x.id = fid := by simpa [opWf] using hwf
      intro hmem
      obtain ⟨x, hx, hxid⟩ := List.mem_map.mp hmem
      exact h x hx hxid
    rcases submit_store_cases s now fid fetchJson t p with h | ⟨jid, h⟩ | h <;>
      rw [show applyOp (.submit now fid fetchJson t p) s =
            (handleSubmitJob s now fid fetchJson t p).2 from rfl, h]
    · exact ⟨⟨hinv.1, hinv.2⟩, stable_of_subset hinv.1 fun _ h => h⟩
    · refine ⟨inv_of_subset hinv _ _ (List.filter_subset' _) ?_,
        stable_of_subset hinv.1 (List.filter_subset' _)⟩
      exact hinv.1.sublist ((List.filter_sublist _).map _)
    · exact ⟨inv_of_append hinv _ _ hfresh (fun _ => rfl),
        stable_of_append hinv.1 _ hfresh⟩
  | check now fetchJson t p =>
    rcases check_store_cases s now fetchJson t p with h | ⟨jid, h⟩ <;>
      rw [show applyOp (.check now fetchJson t p) s =
            (handleCheckJob s now fetchJson t p).2 from rfl, h]
    · exact ⟨⟨hinv.1, hinv.2⟩, stable_of_subset hinv.1 fun _ h => h⟩
    · refine ⟨inv_of_subset hinv _ _ (List.filter_subset' _) ?_,
        stable_of_subset hinv.1 (List.filter_subset' _)⟩
      exact hinv.1.sublist ((List.filter_sublist _).map _)
  | claim now jobId rid =>
    rw [show applyOp (.claim now jobId rid) s = (handleClaimJob s now jobId rid).2
          from rfl, handleClaimJob_store]
    refine ⟨inv_of_map _ _ ⟨hinv.1, hinv.2⟩ (fun x => ?_) (fun x hx hp => ?_),
      stable_of_map _ hinv.1 (fun x => ?_) (fun x hx r hr => ?_)⟩
    · by_cases hm : claimMatches jobId x = true <;> simp [hm]
    · by_cases hm : claimMatches jobId x = true
      · simp [hm] at hp
      · simp only [if_neg hm] at hp ⊢
        exact hinv.2 x hx hp
    · by_cases hm : claimMatches jobId x = true <;> simp [hm]
    · by_cases hm : claimMatches jobId x = true
      · exfalso
        have hm' : x.id = jobId ∧ x.status = .pending := by
          simpa [claimMatches] using hm
        rw [hinv.2 x hx hm'.2] at hr
        exact Option.noConfusion hr
      · simp [hm, hr]
  | heartbeat now jobId rid pc pt c =>
    rw [show applyOp (.heartbeat now jobId rid pc pt c) s =
          (handleHeartbeat s now jobId rid pc pt c).2 from rfl,
        handleHeartbeat_store]
    by_cases hv : validateConsoleOutput c = true
    · rw [if_pos hv]
      refine ⟨inv_of_map _ _ ⟨hinv.1, hinv.2⟩ (fun x => ?_) (fun x hx hp => ?_),
        stable_of_map _ hinv.1 (fun x => ?_) (fun x hx r hr => ?_)⟩
      · by_cases hm : liveMatches jobId rid x = true <;> simp [hm]
      · by_cases hm : liveMatches jobId rid x = true
        · simp [hm] at hp
        · simp only [if_neg hm] at hp ⊢
          exact hinv.2 x hx hp
      · by_cases hm : liveMatches jobId rid x = true <;> simp [hm]
      · by_cases hm : liveMatches jobId rid x = true <;> simp [hm, hr]
    · rw [if_neg hv]
      exact ⟨⟨hinv.1, hinv.2⟩, stable_of_subset hinv.1 fun _ h => h⟩
  | complete now jobId rid o c =>
    rw [show applyOp (.complete now jobId rid o c) s =
          (handleCompleteJob s now jobId rid o c).2 from rfl,
        handleCompleteJob_store]
    by_cases hv : validateJobOutput o = true ∧ validateConsoleOutput c = true
    · rw [if_pos hv]
      refine ⟨inv_of_map _ _ ⟨hinv.1, hinv.2⟩ (fun x => ?_) (fun x hx hp => ?_),
        stable_of_map _ hinv.1 (fun x => ?_) (fun x hx r hr => ?_)⟩
      · by_cases hm : liveMatches jobId rid x = true <;> simp [hm]
      · by_cases hm : liveMatches jobId rid x = true
        · simp [hm] at hp
        · simp only [if_neg hm] at hp ⊢
          exact hinv.2 x hx hp
      · by_cases hm : liveMatches jobId rid x = true <;> simp [hm]
      · by_cases hm : liveMatches jobId rid x = true <;> simp [hm, hr]
    · rw [if_neg hv]
      exact ⟨⟨hinv.1, hinv.2⟩, stable_of_subset hinv.1 fun _ h => h⟩
  | fail now jobId rid e c =>
    rw [show applyOp (.fail now jobId rid e c) s =
          (handleErrorJob s now jobId rid e c).2 from rfl, handleErrorJob_store]
    by_cases hv : validateErrorMessage e = true ∧ validateConsoleOutput c = true
    · rw [if_pos hv]
      refine ⟨inv_of_map _ _ ⟨hinv.1, hinv.2⟩ (fun x => ?_) (fun x hx hp => ?_),
        stable_of_map _ hinv.1 (fun x => ?_) (fun x hx r hr => ?_)⟩
      · by_cases hm : liveMatches jobId rid x = true <;> simp [hm]
      · by_cases hm : liveMatches jobId rid x = true
        · simp [hm] at hp
        · simp only [if_neg hm] at hp ⊢
          exact hinv.2 x hx hp
      · by_cases hm : liveMatches jobId rid x = true <;> simp [hm]
      · by_cases hm : liveMatches jobId rid x = true <;> simp [hm, hr]
    · rw [if_neg hv]
      exact ⟨⟨hinv.1, hinv.2⟩, stable_of_subset hinv.1 fun _ h => h⟩
  | sweep now =>
    refine ⟨inv_of_map _ _ ⟨hinv.1, hinv.2⟩ (fun x => ?_) (fun x hx hp => ?_),
      stable_of_map _ hinv.1 (fun x => ?_) (fun x hx r hr => ?_)⟩
    · by_cases hm : staleMatches (now - HEARTBEAT_THRESHOLD) x = true <;> simp [hm]
    · by_cases hm : staleMatches (now - HEARTBEAT_THRESHOLD) x = true
      · simp [hm] at hp
      · simp only [if_neg hm] at hp ⊢
        exact hinv.2 x hx hp
    · by_cases hm : staleMatches (now - HEARTBEAT_THRESHOLD) x = true <;> simp [hm]
    · by_cases hm : staleMatches (now - HEARTBEAT_THRESHOLD) x = true <;>
        simp [hm, hr]
  | register now i nm caps =>
    have hj : (applyOp (.register now i nm caps) s).jobs = s.jobs :=
      registerRunner_jobs s now i nm caps
    refine ⟨⟨?_, ?_⟩, ?_⟩
    · rw [hj]; exact hinv.1
    · intro j hjj hp
      rw [hj] at hjj
      exact hinv.2 j hjj hp
    · intro j hjj r hr j' hj' hidj
      rw [hj] at hj'
      exact stable_of_subset hinv.1 (fun _ h => h) j hjj r hr j' hj' hidj
  | touch now rid =>
    exact ⟨⟨hinv.1, hinv.2⟩, stable_of_subset hinv.1 fun _ h => h⟩
  | delete jobId =>
    refine ⟨inv_of_subset hinv _ _ (List.filter_subset' _) ?_,
      stable_of_subset hinv.1 (List.filter_subset' _)⟩
    exact hinv.1.sublist ((List.filter_sublist _).map _)

/-- C3: a claim succeeds exactly when the job exists with status pending,
and on success sets status=claimed, claimed_by, claimed_at, last_heartbeat
and updated_at; of two claims on the same pending job the first responds
200 and the second 409; and across every reachable operation, a job's
non-null `claimed_by` is never changed (given the id-uniqueness and
pending-unclaimed store invariant, which every operation preserves). -/
theorem claim_exact :
    (∀ (s : Store) (now : Int) (jobId rid : String),
      ((claimJob s now jobId rid).2 = true ↔
        ∃ j ∈ s.jobs, j.id = jobId ∧ j.status = .pending)) ∧
    (∀ (s : Store) (now : Int) (jobId rid : String) (j : Job),
      j ∈ s.jobs → j.id = jobId → j.status = .pending →
      { j with status := .claimed, claimed_by := some rid,
               claimed_at := some now, last_heartbeat := some now,
               updated_at := now } ∈ (claimJob s now jobId rid).1.jobs) ∧
    (∀ (s : Store) (now1 now2 : Int) (jobId r1 r2 : String) (j : Job),
      j ∈ s.jobs → j.id = jobId → j.status = .pending →
      (handleClaimJob s now1 jobId r1).1 = 200 ∧
      (handleClaimJob (handleClaimJob s now1 jobId r1).2 now2 jobId r2).1 = 409) ∧
    (∀ (op : Op) (s : Store), opWf op s = true → StoreInv s →
      StoreInv (applyOp op s) ∧
      ∀ j ∈ s.jobs, ∀ r, j.claimed_by = some r →
        ∀ j' ∈ (applyOp op s).jobs, j'.id = j.id → j'.claimed_by = some r) :=
  ⟨claimJob_success_iff, claimJob_sets_fields, claim_race, applyOp_inv_stable⟩

/-- A pending unclaimed job used by witnesses. -/
def pendingDemoJob : Job :=
  { id := "j1", job_hash := "h1", job_type := "T", input_params := .obj [],
    status := .pending, created_at := 0, updated_at := 0 }

/-- Witness for C3: on a concrete one-job store, the first claim returns 200
and a second claim by another runner returns 409. -/
theorem claim_exact_witness :
    (handleClaimJob ⟨[pendingDemoJob], []⟩ 10 "j1" "rA").1 = 200 ∧
    (handleClaimJob (handleClaimJob ⟨[pendingDemoJob], []⟩ 10 "j1" "rA").2
        11 "j1" "rB").1 = 409 :=
  claim_exact.2.2.1 ⟨[pendingDemoJob], []⟩ 10 11 "j1" "rA" "rB" pendingDemoJob
    (List.mem_singleton.mpr rfl) rfl rfl

/-! ## Claim C4 — heartbeat/complete/fail preconditions -/

/-- If the row with the id fails the owner-live precondition, no row
matches the conditional update's WHERE clause. -/
theorem no_live_row {s : Store} {jobId rid : String} {j : Job}
    (hnd : (s.jobs.map Job.id).Nodup) (hj : j ∈ s.jobs) (hid : j.id = jobId)
    (hfail : ¬(j.claimed_by = some rid ∧
      (j.status = .claimed ∨ j.status = .in_progress))) :
    ∀ x ∈ s.jobs, liveMatches jobId rid x = false := by
  intro x hx
  rw [Bool.eq_false_iff]
  intro hm
  have hparts : (x.id = jobId ∧ x.claimed_by = some rid) ∧
      (x.status = .claimed ∨ x.status = .in_progress) := by
    simpa [liveMatches] using hm
  have hxj : x = j := nodup_id_unique hnd hj hx (hparts.1.1.trans hid.symm)
  cases hxj
  exact hfail ⟨hparts.1.2, hparts.2⟩

/-- A conditional update whose WHERE clause matches no row is a no-op. -/
theorem live_map_noop (jobs : List Job) (p : Job → Bool) (g : Job → Job)
    (hall : ∀ x ∈ jobs, p x = false) :
    (jobs.map fun x => if p x then g x else x) = jobs := by
  have h : ∀ x ∈ jobs, (fun x => if p x then g x else x) x = id x := fun x hx => by
    simp [hall x hx]
  rw [List.map_congr_left h, List.map_id]

/-- A conditional update whose WHERE clause matches no row reports failure. -/
theorem live_countP_zero (jobs : List Job) (p : Job → Bool)
    (hall : ∀ x ∈ jobs, p x = false) : (jobs.countP p != 0) = false := by
  rw [List.countP_eq_zero.mpr (fun x hx => by simp [hall x hx])]
  rfl

/-- C4 (amended): a heartbeat, complete, or fail request on a job whose
claimed_by differs from the caller or whose status is outside
{claimed, in_progress} — in particular after a terminal transition — responds
400 and leaves the job rows unchanged; and when the caller matches, the
status is live, *and the request passes its size validation*, the operation
succeeds with 200.  (The unamended claim omits the size validation.) -/
theorem live_precondition_exact :
    (∀ (s : Store) (now pc pt : Int) (jobId rid c : String) (j : Job),
      (s.jobs.map Job.id).Nodup → j ∈ s.jobs → j.id = jobId →
      ¬(j.claimed_by = some rid ∧ (j.status = .claimed ∨ j.status = .in_progress)) →
      (handleHeartbeat s now jobId rid pc pt c).1 = 400 ∧
      (handleHeartbeat s now jobId rid pc pt c).2.jobs = s.jobs) ∧
    (∀ (s : Store) (now : Int) (jobId rid : String) (o : JVal) (c : String) (j : Job),
      (s.jobs.map Job.id).Nodup → j ∈ s.jobs → j.id = jobId →
      ¬(j.claimed_by = some rid ∧ (j.status = .claimed ∨ j.status = .in_progress)) →
      (handleCompleteJob s now jobId rid o c).1 = 400 ∧
      (handleCompleteJob s now jobId rid o c).2.jobs = s.jobs) ∧
    (∀ (s : Store) (now : Int) (jobId rid e c : String) (j : Job),
      (s.jobs.map Job.id).Nodup → j ∈ s.jobs → j.id = jobId →
      ¬(j.claimed_by = some rid ∧ (j.status = .claimed ∨ j.status = .in_progress)) →
      (handleErrorJob s now jobId rid e c).1 = 400 ∧
      (handleErrorJob s now jobId rid e c).2.jobs = s.jobs) ∧
    (∀ (s : Store) (now pc pt : Int) (jobId rid c : String) (j : Job),
      j ∈ s.jobs → j.id = jobId → j.claimed_by = some rid →
      (j.status = .claimed ∨ j.status = .in_progress) →
      validateConsoleOutput c = true →
      (handleHeartbeat s now jobId rid pc pt c).1 = 200) ∧
    (∀ (s : Store) (now : Int) (jobId rid : String) (o : JVal) (c : String) (j : Job),
      j ∈ s.jobs → j.id = jobId → j.claimed_by = some rid →
      (j.status = .claimed ∨ j.status = .in_progress) →
      validateJobOutput o = true → validateConsoleOutput c = true →
      (handleCompleteJob s now jobId rid o c).1 = 200) ∧
    (∀ (s : Store) (now : Int) (jobId rid e c : String) (j : Job),
      j ∈ s.jobs → j.id = jobId → j.claimed_by = some rid →
      (j.status = .claimed ∨ j.status = .in_progress) →
      validateErrorMessage e = true → validateConsoleOutput c = true →
      (handleErrorJob s now jobId rid e c).1 = 200) := by
  have hlive : ∀ (jobId rid : String) (j : Job), j.id = jobId →
      j.claimed_by = some rid → (j.status = .claimed ∨ j.status = .in_progress) →
      liveMatches jobId rid j = true := by
    intro jobId rid j h1 h2 h3
    simp [liveMatches, h1, h2, h3]
  refine ⟨?_, ?_, ?_, ?_, ?_, ?_⟩
  · intro s now pc pt jobId rid c j hnd hj hid hfail
    have hall := no_live_row hnd hj hid hfail
    by_cases hv : validateConsoleOutput c = true
    · have hnoop := fun g => live_map_noop s.jobs (fun x => liveMatches jobId rid x) g hall
      have hcnt := live_countP_zero (updateRunnerLastSeen s now rid).jobs
          (fun x => liveMatches jobId rid x) hall
      constructor
      · simp only [handleHeartbeat]
        rw [if_neg (by simp [hv])]
        simp only [updateJobHeartbeat, hcnt]
        rfl
      · rw [handleHeartbeat_store, if_pos hv]
        exact hnoop _
    · constructor
      · simp only [handleHeartbeat]
        rw [if_pos (by simp [Bool.eq_false_iff.mpr hv])]
      · rw [handleHeartbeat_store, if_neg hv]
  · intro s now jobId rid o c j hnd hj hid hfail
    have hall := no_live_row hnd hj hid hfail
    by_cases ho : validateJobOutput o = true
    · by_cases hv : validateConsoleOutput c = true
      · have hnoop := fun g => live_map_noop s.jobs (fun x => liveMatches jobId rid x) g hall
        have hcnt := live_countP_zero (updateRunnerLastSeen s now rid).jobs
          (fun x => liveMatches jobId rid x) hall
        constructor
        · simp only [handleCompleteJob]
          rw [if_neg (by simp [ho]), if_neg (by simp [hv])]
          simp only [completeJob, hcnt]
          rfl
        · rw [handleCompleteJob_store, if_pos (show _ ∧ _ from ⟨ho, hv⟩)]
          exact hnoop _
      · constructor
        · simp only [handleCompleteJob]
          rw [if_neg (by simp [ho]), if_pos (by simp [Bool.eq_false_iff.mpr hv])]
        · rw [handleCompleteJob_store, if_neg (by simp [hv])]
    · constructor
      · simp only [handleCompleteJob]
        rw [if_pos (by simp [Bool.eq_false_iff.mpr ho])]
      · rw [handleCompleteJob_store, if_neg (by simp [ho])]
  · intro s now jobId rid e c j hnd hj hid hfail
    have hall := no_live_row hnd hj hid hfail
    by_cases ho : validateErrorMessage e = true
    · by_cases hv : validateConsoleOutput c = true
      · have hnoop := fun g => live_map_noop s.jobs (fun x => liveMatches jobId rid x) g hall
        have hcnt := live_countP_zero (updateRunnerLastSeen s now rid).jobs
          (fun x => liveMatches jobId rid x) hall
        constructor
        · simp only [handleErrorJob]
          rw [if_neg (by simp [ho]), if_neg (by simp [hv])]
          simp only [failJob, hcnt]
          rfl
        · rw [handleErrorJob_store, if_pos (show _ ∧ _ from ⟨ho, hv⟩)]
          exact hnoop _
      · constructor
        · simp only [handleErrorJob]
          rw [if_neg (by simp [ho]), if_pos (by simp [Bool.eq_false_iff.mpr hv])]
        · rw [handleErrorJob_store, if_neg (by simp [hv])]
    · constructor
      · simp only [handleErrorJob]
        rw [if_pos (by simp [Bool.eq_false_iff.mpr ho])]
      · rw [handleErrorJob_store, if_neg (by simp [ho])]
  · intro s now pc pt jobId rid c j hj hid hcb hst hv
    have hsucc : ((updateRunnerLastSeen s now rid).jobs.countP
        (fun x => liveMatches jobId rid x) != 0) = true := by
      rw [bne_iff_ne, ← Nat.pos_iff_ne_zero, List.countP_pos]
      exact ⟨j, hj, hlive jobId rid j hid hcb hst⟩
    simp only [handleHeartbeat]
    rw [if_neg (by simp [hv])]
    simp only [updateJobHeartbeat, hsucc]
    rfl
  · intro s now jobId rid o c j hj hid hcb hst ho hv
    have hsucc : ((updateRunnerLastSeen s now rid).jobs.countP
        (fun x => liveMatches jobId rid x) != 0) = true := by
      rw [bne_iff_ne, ← Nat.pos_iff_ne_zero, List.countP_pos]
      exact ⟨j, hj, hlive jobId rid j hid hcb hst⟩
    simp only [handleCompleteJob]
    rw [if_neg (by simp [ho]), if_neg (by simp [hv])]
    simp only [completeJob, hsucc]
    rfl
  · intro s now jobId rid e c j hj hid hcb hst ho hv
    have hsucc : ((updateRunnerLastSeen s now rid).jobs.countP
        (fun x => liveMatches jobId rid x) != 0) = true := by
      rw [bne_iff_ne, ← Nat.pos_iff_ne_zero, List.countP_pos]
      exact ⟨j, hj, hlive jobId rid j hid hcb hst⟩
    simp only [handleErrorJob]
    rw [if_neg (by simp [ho]), if_neg (by simp [hv])]
    simp only [failJob, hsucc]
    rfl

/-- A job claimed by runner `"r1"`. -/
def claimedDemoJob : Job :=
  { id := "j1", job_hash := "h1", job_type := "T", input_params := .obj [],
    status := .claimed, created_at := 0, updated_at := 1,
    claimed_by := some "r1", claimed_at := some 1, last_heartbeat := some 1 }

/-- An error message one byte over the 10 KiB cap. -/
def bigErrorMessage : String := String.mk (List.replicate 10241 'a')

/-- Counterexample to C4 as frozen: the rightful owner (`claimed_by = r1`,
status claimed) sends a fail request whose error message exceeds 10 KiB; the
response is 400, not success. -/
theorem live_precondition_counterexample :
    claimedDemoJob.claimed_by = some "r1" ∧
    claimedDemoJob.status = .claimed ∧
    claimedDemoJob ∈ (⟨[claimedDemoJob], []⟩ : Store).jobs ∧
    (handleErrorJob ⟨[claimedDemoJob], []⟩ 10 "j1" "r1" bigErrorMessage "").1 = 400 := by
  have h : bigErrorMessage.length = 10241 := by
    show (List.replicate 10241 'a').length = 10241
    exact List.length_replicate _ _
  have hlen : validateErrorMessage bigErrorMessage = false := by
    rw [validateErrorMessage, h]
    simp [SIZE_ERROR_MESSAGE]
  refine ⟨rfl, rfl, List.mem_singleton.mpr rfl, ?_⟩
  simp [handleErrorJob, hlen]

/-- Witness for C4 (amended): a size-valid heartbeat from the rightful owner
of a claimed job responds 200. -/
theorem live_precondition_exact_witness :
    (handleHeartbeat ⟨[claimedDemoJob], []⟩ 10 "j1" "r1" 2 3 "half").1 = 200 :=
  live_precondition_exact.2.2.2.1 ⟨[claimedDemoJob], []⟩ 10 2 3 "j1" "r1" "half"
    claimedDemoJob (List.mem_singleton.mpr rfl) rfl rfl (Or.inl rfl) (by decide)

/-! ## Claim C9 — claim on an unknown job id -/

/-- Counterexample to C9 as frozen: a claim whose job id matches no job
responds 409 (the conditional update cannot distinguish a missing row from a
non-pending one), not 404. -/
theorem claim_unknown_id_counterexample :
    getJobById ⟨[], []⟩ "nope" = none ∧
    (handleClaimJob ⟨[], []⟩ 5 "nope" "r1").1 = 409 ∧
    (handleClaimJob ⟨[], []⟩ 5 "nope" "r1").1 ≠ 404 := by
  refine ⟨rfl, ?_, ?_⟩ <;> decide

/-- C9 (amended): a claim request whose job id matches no job in the store
responds 409 with the combined "already claimed or not found" failure, and
leaves the job rows unchanged; the handler's 404 arises only if the row
vanishes between the successful conditional update and the re-read, never
for an id that was simply unknown. -/
theorem claim_unknown_id_409 (s : Store) (now : Int) (jobId rid : String)
    (habs : ∀ x ∈ s.jobs, ¬x.id = jobId) :
    (handleClaimJob s now jobId rid).1 = 409 ∧
    (handleClaimJob s now jobId rid).2.jobs = s.jobs := by
  have hall : ∀ x ∈ (updateRunnerLastSeen s now rid).jobs,
      claimMatches jobId x = false := by
    intro x hx
    rw [Bool.eq_false_iff]
    intro hm
    have hp : x.id = jobId ∧ x.status = .pending := by simpa [claimMatches] using hm
    exact habs x hx hp.1
  have hfail : (claimJob (updateRunnerLastSeen s now rid) now jobId rid).2 = false := by
    show ((updateRunnerLastSeen s now rid).jobs.countP
      (fun j => claimMatches jobId j) != 0) = false
    exact live_countP_zero _ _ hall
  constructor
  · simp [handleClaimJob, hfail]
  · rw [handleClaimJob_store]
    exact live_map_noop _ _ _ hall

/-- Witness for C9 (amended): claiming an id absent from a one-job store
responds 409 and changes no job row. -/
theorem claim_unknown_id_409_witness :
    (handleClaimJob ⟨[pendingDemoJob], []⟩ 5 "unknown" "r1").1 = 409 ∧
    (handleClaimJob ⟨[pendingDemoJob], []⟩ 5 "unknown" "r1").2.jobs =
      [pendingDemoJob] :=
  claim_unknown_id_409 ⟨[pendingDemoJob], []⟩ 5 "unknown" "r1"
    (by intro x hx; rw [List.mem_singleton.mp hx]; decide)

/-! ## Claim C6 — completed cache hit: fresh vs expired -/

/-- C6: when submit (or check) finds an existing job of the request's hash
with status completed, a passing freshness probe yields a 200 response with
the cached output and an unchanged store, and a failing probe (including
internal probe failures, which surface as `false`) yields deletion of the
row and a 200 response with synthetic status expired — in either outcome the
HTTP status is 200, never an error. -/
theorem completed_cache_exact (s : Store) (now : Int) (freshId : String)
    (fetchJson : String → Option Figpack) (t : String)
    (p : List (String × JVal)) (j : Job)
    (hval : validateJobInput t p = true)
    (hfind : getJobByHash s (generateJobHash t p) = some j)
    (hcomp : j.status = .completed) :
    (validateJobResult fetchJson now j = true →
      handleSubmitJob s now freshId fetchJson t p =
        ({ http := 200, job_id := some j.id, jstatus := some .completed,
           result_output := some (outputEcho j.output_data) }, s) ∧
      handleCheckJob s now fetchJson t p =
        ({ http := 200, found := true, job_id := some j.id,
           jstatus := some .completed,
           result_output := some (outputEcho j.output_data) }, s)) ∧
    (validateJobResult fetchJson now j = false →
      handleSubmitJob s now freshId fetchJson t p =
        ({ http := 200, job_id := some j.id, jstatus := some .expired,
           result_output := none },
         ⟨s.jobs.filter fun x => !(x.id == j.id), s.runners⟩) ∧
      handleCheckJob s now fetchJson t p =
        ({ http := 200, found := true, job_id := some j.id,
           jstatus := some .expired, result_output := none },
         ⟨s.jobs.filter fun x => !(x.id == j.id), s.runners⟩)) ∧
    (handleSubmitJob s now freshId fetchJson t p).1.http = 200 ∧
    (handleCheckJob s now fetchJson t p).1.http = 200 := by
  have hsubmit : ∀ hv : Bool, validateJobResult fetchJson now j = hv →
      handleSubmitJob s now freshId fetchJson t p =
        (if hv then
          ({ http := 200, job_id := some j.id, jstatus := some .completed,
             result_output := some (outputEcho j.output_data) }, s)
         else
          ({ http := 200, job_id := some j.id, jstatus := some .expired,
             result_output := none },
           ⟨s.jobs.filter fun x => !(x.id == j.id), s.runners⟩)) := by
    intro hv hveq
    simp only [handleSubmitJob, hfind]
    rw [if_neg (by simp [hval]), if_pos (by simp [hcomp])]
    cases hv with
    | true => rw [if_pos hveq]; rfl
    | false => rw [if_neg (by simp [hveq])]; rfl
  have hcheck : ∀ hv : Bool, validateJobResult fetchJson now j = hv →
      handleCheckJob s now fetchJson t p =
        (if hv then
          ({ http := 200, found := true, job_id := some j.id,
             jstatus := some .completed,
             result_output := some (outputEcho j.output_data) }, s)
         else
          ({ http := 200, found := true, job_id := some j.id,
             jstatus := some .expired, result_output := none },
           ⟨s.jobs.filter fun x => !(x.id == j.id), s.runners⟩)) := by
    intro hv hveq
    simp only [handleCheckJob, hfind]
    rw [if_neg (by simp [hval]), if_pos (by simp [hcomp])]
    cases hv with
    | true => rw [if_pos hveq]; rfl
    | false => rw [if_neg (by simp [hveq])]; rfl
  refine ⟨fun hv => ⟨?_, ?_⟩, fun hv => ⟨?_, ?_⟩, ?_, ?_⟩
  · rw [hsubmit true hv]; rfl
  · rw [hcheck true hv]; rfl
  · rw [hsubmit false hv]; rfl
  · rw [hcheck false hv]; rfl
  · cases hv : validateJobResult fetchJson now j with
    | true => rw [hsubmit true hv]; rfl
    | false => rw [hsubmit false hv]; rfl
  · cases hv : validateJobResult fetchJson now j with
    | true => rw [hcheck true hv]; rfl
    | false => rw [hcheck false hv]; rfl

/-- A completed job whose cached hash matches `{a:1}` under type `"T"` but
whose stored output text does not parse as JSON. -/
def badCachedJob : Job :=
  { id := "j0", job_hash := generateJobHash "T" [("a", .num 1)], job_type := "T",
    input_params := .obj [("a", .num 1)], status := .completed,
    created_at := 0, updated_at := 3, claimed_by := some "r1",
    output_data := some none }

/-- Witness for C6: the probe rejects `badCachedJob` (stored output does not
parse), so re-submitting the same params deletes the row and responds 200
with synthetic status expired. -/
theorem completed_cache_exact_witness :
    validateJobResult (fun _ => none) 20 badCachedJob = false ∧
    handleSubmitJob ⟨[badCachedJob], []⟩ 20 "f1" (fun _ => none) "T"
        [("a", .num 1)] =
      ({ http := 200, job_id := some "j0", jstatus := some .expired,
         result_output := none }, ⟨[], []⟩) := by
  have h := (completed_cache_exact ⟨[badCachedJob], []⟩ 20 "f1" (fun _ => none)
      "T" [("a", .num 1)] badCachedJob (by decide) (by decide) rfl).2.1 rfl
  refine ⟨rfl, ?_⟩
  rw [h.1]
  decide

/-! ## Claim C1 — deduplicating submissions -/

/-- Shared form of the canonical-hash invariance (also the content of the
C2 theorem): equal hashes for deep-equal params. -/
theorem generateJobHash_eq_of_jEquiv (t : String) (p1 p2 : List (String × JVal))
    (he : jEquiv (.obj p1) (.obj p2) = true)
    (w1 : jwf (.obj p1) = true) (w2 : jwf (.obj p2) = true) :
    generateJobHash t p1 = generateJobHash t p2 := by
  unfold generateJobHash
  rw [sortObjectKeys_eq_of_jEquiv (.obj p1) (.obj p2) he w1 w2]

theorem find?_append_none {α : Type} {p : α → Bool} {l1 l2 : List α}
    (h : l1.find? p = none) : (l1 ++ l2).find? p = l2.find? p := by
  induction l1 with
  | nil => rfl
  | cons a l ih =>
    cases hp : p a with
    | true => simp [List.find?, hp] at h
    | false =>
      simp only [List.find?, hp] at h ⊢
      exact ih h

/-- Response facts when submit finds an existing row of the hash: the
response carries that row's id with HTTP 200, and unless the response is the
synthetic expired one, the store is untouched. -/
theorem submit_found_cases (s : Store) (now : Int) (fid : String)
    (f : String → Option Figpack) (t : String) (p : List (String × JVal))
    (existing : Job) (hv : validateJobInput t p = true)
    (hfind : getJobByHash s (generateJobHash t p) = some existing) :
    (handleSubmitJob s now fid f t p).1.job_id = some existing.id ∧
    (handleSubmitJob s now fid f t p).1.http = 200 ∧
    ((handleSubmitJob s now fid f t p).1.jstatus ≠ some .expired →
      (handleSubmitJob s now fid f t p).2 = s) := by
  simp only [handleSubmitJob, hfind]
  rw [if_neg (by simp [hv])]
  by_cases hc : (existing.status == JobStatus.completed) = true
  · rw [if_pos hc]
    by_cases hval : validateJobResult f now existing = true
    · rw [if_pos hval]
      exact ⟨rfl, rfl, fun _ => rfl⟩
    · rw [if_neg hval]
      exact ⟨rfl, rfl, fun hne => absurd rfl hne⟩
  · rw [if_neg hc]
    by_cases hf2 : (existing.status == JobStatus.failed) = true
    · rw [if_pos hf2]
      exact ⟨rfl, rfl, fun _ => rfl⟩
    · rw [if_neg hf2]
      exact ⟨rfl, rfl, fun _ => rfl⟩

/-- C1 (amended): two submits with deep-equal input_params return the same
job_id whenever the first response does not carry synthetic status expired
(a stale completed row deleted between the two submits yields the old id
then a fresh one); and a submit of a fresh hash responds 201 pending with
the fresh id while the next submit of the same hash responds 200 with that
same id. -/
theorem submit_dedup_exact (s : Store) (t : String) (p1 p2 : List (String × JVal))
    (now1 now2 : Int) (id1 id2 : String) (f1 f2 : String → Option Figpack)
    (he : jEquiv (.obj p1) (.obj p2) = true)
    (w1 : jwf (.obj p1) = true) (w2 : jwf (.obj p2) = true)
    (hv1 : validateJobInput t p1 = true) (hv2 : validateJobInput t p2 = true) :
    ((handleSubmitJob s now1 id1 f1 t p1).1.jstatus ≠ some .expired →
      (handleSubmitJob (handleSubmitJob s now1 id1 f1 t p1).2
          now2 id2 f2 t p2).1.job_id =
        (handleSubmitJob s now1 id1 f1 t p1).1.job_id) ∧
    (getJobByHash s (generateJobHash t p1) = none →
      (handleSubmitJob s now1 id1 f1 t p1).1.http = 201 ∧
      (handleSubmitJob s now1 id1 f1 t p1).1.jstatus = some .pending ∧
      (handleSubmitJob s now1 id1 f1 t p1).1.job_id = some id1 ∧
      (handleSubmitJob (handleSubmitJob s now1 id1 f1 t p1).2
          now2 id2 f2 t p2).1.http = 200 ∧
      (handleSubmitJob (handleSubmitJob s now1 id1 f1 t p1).2
          now2 id2 f2 t p2).1.job_id = some id1) := by
  have hh : generateJobHash t p2 = generateJobHash t p1 :=
    (generateJobHash_eq_of_jEquiv t p1 p2 he w1 w2).symm
  cases hfind : getJobByHash s (generateJobHash t p1) with
  | some existing =>
    have hr1 := submit_found_cases s now1 id1 f1 t p1 existing hv1 hfind
    have hfind2 : getJobByHash s (generateJobHash t p2) = some existing := by
      rw [hh]
      exact hfind
    refine ⟨fun hne => ?_, fun habs => ?_⟩
    · rw [hr1.2.2 hne]
      have hr2 := submit_found_cases s now2 id2 f2 t p2 existing hv2 hfind2
      rw [hr2.1, hr1.1]
    · exact Option.noConfusion habs
  | none =>
    have hr1 : handleSubmitJob s now1 id1 f1 t p1 =
        ({ http := 201, job_id := some id1, jstatus := some .pending,
           result_output := none },
         createJob s now1 id1 (generateJobHash t p1) t (.obj p1)) := by
      simp only [handleSubmitJob, hfind]
      rw [if_neg (by simp [hv1])]
    have hfind2 :
        getJobByHash (createJob s now1 id1 (generateJobHash t p1) t (.obj p1))
          (generateJobHash t p2) = some
          { id := id1, job_hash := generateJobHash t p1, job_type := t,
            input_params := .obj p1, status := .pending, created_at := now1,
            updated_at := now1 } := by
      rw [hh]
      show (s.jobs ++ [_]).find? _ = _
      rw [find?_append_none hfind]
      simp [List.find?]
    have hr2 := submit_found_cases
      (createJob s now1 id1 (generateJobHash t p1) t (.obj p1)) now2 id2 f2 t p2
      _ hv2 hfind2
    refine ⟨fun _ => ?_, fun _ => ⟨?_, ?_, ?_, ?_, ?_⟩⟩
    · rw [hr1]
      exact hr2.1
    · rw [hr1]
    · rw [hr1]
    · rw [hr1]
    · rw [hr1]
      exact hr2.2.1
    · rw [hr1]
      exact hr2.1

set_option maxRecDepth 100000 in
/-- Counterexample to C1 as frozen: two submits of deep-equal params around
a stale completed row return different job_ids — the first response carries
the old id with synthetic status expired (and deletes the row), the second
creates a fresh job. -/
theorem submit_dedup_counterexample :
    jEquiv (.obj [("a", .num 1)]) (.obj [("a", .num 1)]) = true ∧
    (handleSubmitJob ⟨[badCachedJob], []⟩ 20 "f1" (fun _ => none) "T"
        [("a", .num 1)]).1.job_id = some "j0" ∧
    (handleSubmitJob ⟨[badCachedJob], []⟩ 20 "f1" (fun _ => none) "T"
        [("a", .num 1)]).1.jstatus = some .expired ∧
    (handleSubmitJob
        (handleSubmitJob ⟨[badCachedJob], []⟩ 20 "f1" (fun _ => none) "T"
          [("a", .num 1)]).2
        21 "f2" (fun _ => none) "T" [("a", .num 1)]).1.job_id = some "f2" ∧
    (some "j0" : Option String) ≠ some "f2" := by
  refine ⟨by simp [jEquiv, jEquivSub, jEquivLookup], ?_, ?_, ?_, by decide⟩ <;>
    decide

set_option maxRecDepth 100000 in
/-- Witness for C1 (amended): submitting `{a:1,b:2}` to the empty store
returns 201 pending with the fresh id, and a second submit of `{b:2,a:1}`
returns 200 with the same id. -/
theorem submit_dedup_exact_witness :
    (handleSubmitJob ⟨[], []⟩ 10 "f1" (fun _ => none) "T"
        [("a", .num 1), ("b", .num 2)]).1.http = 201 ∧
    (handleSubmitJob ⟨[], []⟩ 10 "f1" (fun _ => none) "T"
        [("a", .num 1), ("b", .num 2)]).1.jstatus = some .pending ∧
    (handleSubmitJob ⟨[], []⟩ 10 "f1" (fun _ => none) "T"
        [("a", .num 1), ("b", .num 2)]).1.job_id = some "f1" ∧
    (handleSubmitJob
        (handleSubmitJob ⟨[], []⟩ 10 "f1" (fun _ => none) "T"
          [("a", .num 1), ("b", .num 2)]).2
        11 "f2" (fun _ => none) "T" [("b", .num 2), ("a", .num 1)]).1.http = 200 ∧
    (handleSubmitJob
        (handleSubmitJob ⟨[], []⟩ 10 "f1" (fun _ => none) "T"
          [("a", .num 1), ("b", .num 2)]).2
        11 "f2" (fun _ => none) "T" [("b", .num 2), ("a", .num 1)]).1.job_id =
      some "f1" :=
  (submit_dedup_exact ⟨[], []⟩ "T" [("a", .num 1), ("b", .num 2)]
    [("b", .num 2), ("a", .num 1)] 10 11 "f1" "f2" (fun _ => none) (fun _ => none)
    (by simp [jEquiv, jEquivSub, jEquivLookup]) (by decide) (by decide)
    (by decide) (by decide)).2 rfl

/-! ## Claim C8 — is the stale sweep ever invoked? -/

/-- C8 (code bug): `checkStaleJobs` exists in `db/queries.ts` but has no
call site — `index.ts` exports only the `fetch` handler, and no route of
`router.ts` (nor any handler they dispatch to) invokes it.  Concretely, on a
store holding a claimed job whose last heartbeat is 90 001 ms old, the store
effects of the runner-facing requests (available-jobs poll = runner touch,
registration, a claim of some other id) leave the job claimed, while the
never-invoked sweep itself would have failed it. -/
theorem stale_sweep_never_invoked :
    ((updateRunnerLastSeen ⟨[staleDemoJob], [demoRunner]⟩ 100000 "r1").jobs.map
        (fun j => j.status) = [.claimed]) ∧
    ((registerRunner ⟨[staleDemoJob], [demoRunner]⟩ 100000 "r2" "N" ["T"]).jobs.map
        (fun j => j.status) = [.claimed]) ∧
    ((handleClaimJob ⟨[staleDemoJob], [demoRunner]⟩ 100000 "jX" "r1").2.jobs.map
        (fun j => j.status) = [.claimed]) ∧
    ((checkStaleJobs ⟨[staleDemoJob], [demoRunner]⟩ 100000).jobs.map
        (fun j => j.status) = [.failed]) := by
  refine ⟨?_, ?_, ?_, ?_⟩ <;> decide
